import Mathlib

/-!
# Verification of the Telegram Mini App backend core

A shallow embedding, in Lean 4, of the security- and protocol-relevant core of
the repository: the Telegram `initData` HMAC verifier
(`src/lib/telegram/validate-init-data.ts`), the fixed-window rate limiter
(`src/lib/http/rate-limit.ts`), the retry/timeout envelope and the Supabase
identity bootstrap, together with theorems settling the specified properties.

Machine integers are modelled as `Nat` with explicit reduction `% 2^32` where
the JavaScript/Node code relies on 32-bit wrapping (inside SHA-256).  Byte
strings are `List Nat` with every element `< 256`.
-/

deriving instance DecidableEq for Except

namespace Mozg

/-! ## SHA-256 (FIPS 180-4), as used by node:crypto `createHmac("sha256", ...)`

Pure `Nat` implementation over byte lists; words are `Nat` kept below `2^32`
by explicit `% 2^32` after every operation that can overflow. -/

def w32 : Nat := 4294967296

def mask32 : Nat := 4294967295

def rotr32 (x n : Nat) : Nat := ((x >>> n) ||| (x <<< (32 - n))) % w32

def shr32 (x n : Nat) : Nat := x >>> n

def not32 (x : Nat) : Nat := x ^^^ mask32

def ch32 (x y z : Nat) : Nat := (x &&& y) ^^^ (not32 x &&& z)

def maj32 (x y z : Nat) : Nat := (x &&& y) ^^^ (x &&& z) ^^^ (y &&& z)

def bsig0 (x : Nat) : Nat := rotr32 x 2 ^^^ rotr32 x 13 ^^^ rotr32 x 22

def bsig1 (x : Nat) : Nat := rotr32 x 6 ^^^ rotr32 x 11 ^^^ rotr32 x 25

def ssig0 (x : Nat) : Nat := rotr32 x 7 ^^^ rotr32 x 18 ^^^ shr32 x 3

def ssig1 (x : Nat) : Nat := rotr32 x 17 ^^^ rotr32 x 19 ^^^ shr32 x 10

/-- The 64 SHA-256 round constants (FIPS 180-4 §4.2.2, in decimal). -/
def sha256K : List Nat :=
  [1116352408, 1899447441, 3049323471, 3921009573, 961987163, 1508970993,
   2453635748, 2870763221, 3624381080, 310598401, 607225278, 1426881987,
   1925078388, 2162078206, 2614888103, 3248222580, 3835390401, 4022224774,
   264347078, 604807628, 770255983, 1249150122, 1555081692, 1996064986,
   2554220882, 2821834349, 2952996808, 3210313671, 3336571891, 3584528711,
   113926993, 338241895, 666307205, 773529912, 1294757372, 1396182291,
   1695183700, 1986661051, 2177026350, 2456956037, 2730485921, 2820302411,
   3259730800, 3345764771, 3516065817, 3600352804, 4094571909, 275423344,
   430227734, 506948616, 659060556, 883997877, 958139571, 1322822218,
   1537002063, 1747873779, 1955562222, 2024104815, 2227730452, 2361852424,
   2428436474, 2756734187, 3204031479, 3329325298]

/-- The eight SHA-256 initial hash values. -/
structure Sha256State where
  a : Nat
  b : Nat
  c : Nat
  d : Nat
  e : Nat
  f : Nat
  g : Nat
  h : Nat
deriving Repr, DecidableEq

def sha256Init : Sha256State :=
  ⟨1779033703, 3144134277, 1013904242, 2773480762,
   1359893119, 2600822924, 528734635, 1541459225⟩

/-- SHA-256 message padding: append `0x80`, zero bytes, then the 64-bit
big-endian bit length, reaching a multiple of 64 bytes. -/
def sha256Pad (msg : List Nat) : List Nat :=
  let len := msg.length
  let zeros := (64 + 56 - (len + 1) % 64) % 64
  let bitLen := len * 8
  msg ++ [0x80] ++ List.replicate zeros 0 ++
    [(bitLen >>> 56) % 256, (bitLen >>> 48) % 256, (bitLen >>> 40) % 256, (bitLen >>> 32) % 256,
     (bitLen >>> 24) % 256, (bitLen >>> 16) % 256, (bitLen >>> 8) % 256, bitLen % 256]

/-- Split a list into 64-byte chunks (the padded message length is a multiple
of 64, so every chunk is full).  Structural recursion on a fuel bound so the
definition reduces in the kernel; the fuel `l.length` always suffices because
each step consumes at least one element. -/
def chunks64Aux : Nat → List Nat → List (List Nat)
  | 0, _ => []
  | _ + 1, [] => []
  | fuel + 1, x :: xs => (x :: List.take 63 xs) :: chunks64Aux fuel (List.drop 63 xs)

def chunks64 (l : List Nat) : List (List Nat) := chunks64Aux l.length l

/-- Big-endian 4-byte groups of a 64-byte block into 16 words. -/
def blockWords : List Nat → List Nat
  | b0 :: b1 :: b2 :: b3 :: rest => (((b0 * 256 + b1) * 256 + b2) * 256 + b3) :: blockWords rest
  | _ => []

/-- Extend 16 words to the 64-word message schedule. -/
def sha256Schedule (w16 : List Nat) : List Nat :=
  (List.range 48).foldl
    (fun w i =>
      let t := 16 + i
      w ++ [(ssig1 (w.getD (t - 2) 0) + w.getD (t - 7) 0 +
             ssig0 (w.getD (t - 15) 0) + w.getD (t - 16) 0) % w32])
    w16

def sha256Round (st : Sha256State) (kt wt : Nat) : Sha256State :=
  let t1 := (st.h + bsig1 st.e + ch32 st.e st.f st.g + kt + wt) % w32
  let t2 := (bsig0 st.a + maj32 st.a st.b st.c) % w32
  ⟨(t1 + t2) % w32, st.a, st.b, st.c, (st.d + t1) % w32, st.e, st.f, st.g⟩

def sha256Compress (st : Sha256State) (block : List Nat) : Sha256State :=
  let w := sha256Schedule (blockWords block)
  let fin := (List.range 64).foldl (fun s t => sha256Round s (sha256K.getD t 0) (w.getD t 0)) st
  ⟨(st.a + fin.a) % w32, (st.b + fin.b) % w32, (st.c + fin.c) % w32, (st.d + fin.d) % w32,
   (st.e + fin.e) % w32, (st.f + fin.f) % w32, (st.g + fin.g) % w32, (st.h + fin.h) % w32⟩

def wordBytes (x : Nat) : List Nat :=
  [(x >>> 24) % 256, (x >>> 16) % 256, (x >>> 8) % 256, x % 256]

def sha256StateBytes (st : Sha256State) : List Nat :=
  wordBytes st.a ++ wordBytes st.b ++ wordBytes st.c ++ wordBytes st.d ++
  wordBytes st.e ++ wordBytes st.f ++ wordBytes st.g ++ wordBytes st.h

/-- SHA-256 of a byte list: a 32-byte digest. -/
def sha256 (msg : List Nat) : List Nat :=
  sha256StateBytes ((chunks64 (sha256Pad msg)).foldl sha256Compress sha256Init)

/-- HMAC-SHA256 (FIPS 198-1) over byte lists, as implemented by
node:crypto `createHmac("sha256", key).update(msg).digest()`. -/
def hmacSha256 (key msg : List Nat) : List Nat :=
  let k0 := if key.length > 64 then sha256 key else key
  let kPad := k0 ++ List.replicate (64 - k0.length) 0
  let ipadKey := kPad.map (fun b => b ^^^ 0x36)
  let opadKey := kPad.map (fun b => b ^^^ 0x5c)
  sha256 (opadKey ++ sha256 (ipadKey ++ msg))

/-- Lowercase hex digit for a nibble. -/
def hexDigit (n : Nat) : Char :=
  if n < 10 then Char.ofNat (48 + n) else Char.ofNat (87 + n)

/-- Lowercase hexadecimal rendering of a byte list, as produced by
node:crypto `.digest("hex")`. -/
def bytesToHex (bs : List Nat) : String :=
  String.mk (bs.flatMap (fun b => [hexDigit ((b >>> 4) % 16), hexDigit (b % 16)]))

/-- UTF-8 encoding of one character (code point), as Node encodes strings
passed to `hash.update`. -/
def utf8Char (c : Char) : List Nat :=
  let n := c.toNat
  if n < 0x80 then [n]
  else if n < 0x800 then [0xc0 ||| (n >>> 6), 0x80 ||| (n &&& 0x3f)]
  else if n < 0x10000 then
    [0xe0 ||| (n >>> 12), 0x80 ||| ((n >>> 6) &&& 0x3f), 0x80 ||| (n &&& 0x3f)]
  else
    [0xf0 ||| (n >>> 18), 0x80 ||| ((n >>> 12) &&& 0x3f),
     0x80 ||| ((n >>> 6) &&& 0x3f), 0x80 ||| (n &&& 0x3f)]

/-- UTF-8 encoding of a string as a byte list. -/
def utf8 (s : String) : List Nat := s.data.flatMap utf8Char

/-! ## URL query-string parsing (`new URLSearchParams(initData)`)

Models the WHATWG application/x-www-form-urlencoded parser used by the
`URLSearchParams` constructor: an optional leading `?` is dropped, the input
splits on `&`, empty segments are skipped, each segment splits at its first
`=`, `+` becomes a space, and `%XX` escapes decode to bytes which are then
UTF-8 decoded (malformed sequences become U+FFFD). -/

def hexVal (c : Char) : Option Nat :=
  if '0' ≤ c ∧ c ≤ '9' then some (c.toNat - 48)
  else if 'a' ≤ c ∧ c ≤ 'f' then some (c.toNat - 87)
  else if 'A' ≤ c ∧ c ≤ 'F' then some (c.toNat - 55)
  else none

/-- Percent-decoding of a character sequence into bytes; characters that are
not part of a valid `%XX` escape contribute their UTF-8 bytes verbatim. -/
def percentBytes : List Char → List Nat
  | [] => []
  | '%' :: c1 :: c2 :: rest =>
    match hexVal c1, hexVal c2 with
    | some hi, some lo => (16 * hi + lo) :: percentBytes rest
    | _, _ => utf8Char '%' ++ percentBytes (c1 :: c2 :: rest)
  | c :: rest => utf8Char c ++ percentBytes rest

def isUtf8Cont (b : Nat) : Bool := 0x80 ≤ b ∧ b < 0xc0

def isScalarValue (n : Nat) : Bool := n < 0xd800 ∨ (0xe000 ≤ n ∧ n ≤ 0x10ffff)

def scalarChar (n : Nat) : Char := if isScalarValue n then Char.ofNat n else Char.ofNat 0xfffd

/-- UTF-8 decoding with a fuel bound (structural, so it reduces in the
kernel); malformed input yields U+FFFD and consumes one byte. -/
def utf8DecodeAux : Nat → List Nat → List Char
  | 0, _ => []
  | _ + 1, [] => []
  | fuel + 1, b :: bs =>
    if b < 0x80 then Char.ofNat b :: utf8DecodeAux fuel bs
    else if 0xc2 ≤ b ∧ b < 0xe0 then
      match bs with
      | b1 :: rest =>
        if isUtf8Cont b1 then
          scalarChar ((b - 0xc0) * 64 + (b1 - 0x80)) :: utf8DecodeAux fuel rest
        else Char.ofNat 0xfffd :: utf8DecodeAux fuel bs
      | [] => [Char.ofNat 0xfffd]
    else if 0xe0 ≤ b ∧ b < 0xf0 then
      match bs with
      | b1 :: b2 :: rest =>
        if isUtf8Cont b1 ∧ isUtf8Cont b2 then
          scalarChar ((b - 0xe0) * 4096 + (b1 - 0x80) * 64 + (b2 - 0x80)) :: utf8DecodeAux fuel rest
        else Char.ofNat 0xfffd :: utf8DecodeAux fuel bs
      | _ => Char.ofNat 0xfffd :: utf8DecodeAux fuel bs
    else if 0xf0 ≤ b ∧ b < 0xf5 then
      match bs with
      | b1 :: b2 :: b3 :: rest =>
        if isUtf8Cont b1 ∧ isUtf8Cont b2 ∧ isUtf8Cont b3 then
          scalarChar ((b - 0xf0) * 262144 + (b1 - 0x80) * 4096 + (b2 - 0x80) * 64 + (b3 - 0x80)) ::
            utf8DecodeAux fuel rest
        else Char.ofNat 0xfffd :: utf8DecodeAux fuel bs
      | _ => Char.ofNat 0xfffd :: utf8DecodeAux fuel bs
    else Char.ofNat 0xfffd :: utf8DecodeAux fuel bs

def utf8Decode (bs : List Nat) : String := String.mk (utf8DecodeAux bs.length bs)

/-- Decode one form-urlencoded component: `+` to space, percent-unescape,
UTF-8 decode. -/
def formDecode (cs : List Char) : String :=
  utf8Decode (percentBytes (cs.map (fun c => if c = '+' then ' ' else c)))

/-- Parse one `name=value` segment: split at the first `=` (a segment without
`=` is a name with empty value). -/
def parseSegment (cs : List Char) : String × String :=
  let name := cs.takeWhile (· ≠ '=')
  let rest := cs.dropWhile (· ≠ '=')
  match rest with
  | [] => (formDecode name, "")
  | _ :: vs => (formDecode name, formDecode vs)

/-- Split at every `&` (structural recursion, kernel-reducible). -/
def splitOnAmpAux : List Char → List (List Char)
  | [] => [[]]
  | c :: rest =>
    match splitOnAmpAux rest with
    | [] => if c = '&' then [[], []] else [[c]]
    | h :: t => if c = '&' then [] :: h :: t else (c :: h) :: t

/-- `new URLSearchParams(s)`: the ordered list of key→value pairs (a leading
`?` is dropped, empty `&`-segments are skipped). -/
def parseQuery (s : String) : List (String × String) :=
  let body : List Char :=
    match s.data with
    | '?' :: rest => rest
    | l => l
  ((splitOnAmpAux body).filter (· ≠ [])).map parseSegment

/-- `URLSearchParams.get`: the value of the FIRST pair with the given name,
or `none` when the name is absent. -/
def jsGet (ps : List (String × String)) (k : String) : Option String :=
  (ps.find? (fun p => p.1 = k)).map Prod.snd

/-! ## The comparator `(a, b) => a.localeCompare(b)` and the stable sort

`String.prototype.localeCompare` under Node's default locale is ICU root
collation.  Modelled here for the character repertoire that can occur in
initData keys: at the primary level whitespace/punctuation/symbols (ordered
among themselves by code point) precede digits, which precede letters;
letters compare case-insensitively at the primary level, and a string whose
primary weights tie is ordered with lowercase before uppercase (the tertiary
level).  On keys made only of lowercase ASCII letters and underscores — every
key Telegram actually sends — this order coincides with byte order. -/

def primaryWeight (c : Char) : Nat :=
  if c.isDigit then 1000 + c.toNat
  else if c.isAlpha then 2000 + (c.toLower).toNat
  else 100 + c.toNat

def caseWeight (c : Char) : Nat := if c.isUpper then 1 else 0

def cmpNatList : List Nat → List Nat → Ordering
  | [], [] => .eq
  | [], _ :: _ => .lt
  | _ :: _, [] => .gt
  | x :: xs, y :: ys => if x < y then .lt else if y < x then .gt else cmpNatList xs ys

def localeCompare (a b : String) : Ordering :=
  match cmpNatList (a.data.map primaryWeight) (b.data.map primaryWeight) with
  | .eq => cmpNatList (a.data.map caseWeight) (b.data.map caseWeight)
  | o => o

/-- Stable insertion of one element into a sorted list: `x` (originally
earlier) goes before the first element it does not compare greater than, as
`Array.prototype.sort` (stable per ES2019) arranges it. -/
def insertCmp (cmp : α → α → Ordering) (x : α) : List α → List α
  | [] => [x]
  | y :: ys => if cmp x y = .gt then y :: insertCmp cmp x ys else x :: y :: ys

/-- Stable sort by a comparator (`Array.prototype.sort`). -/
def sortByCmp (cmp : α → α → Ordering) (l : List α) : List α :=
  l.foldr (insertCmp cmp) []

/-! ## The initData validator (`src/lib/telegram/validate-init-data.ts`) -/

/-- The pair list entering the data-check string: all entries except `hash`,
sorted by `a.localeCompare(b)` on the keys. -/
def dcsPairs (params : List (String × String)) : List (String × String) :=
  sortByCmp (fun p q => localeCompare p.1 q.1) (params.filter (fun p => p.1 ≠ "hash"))

/-- `buildDataCheckString`: all pairs except `hash`, sorted by
`a.localeCompare(b)` on the keys, joined as `key=value` lines. -/
def buildDataCheckString (params : List (String × String)) : String :=
  String.intercalate "\n" ((dcsPairs params).map (fun p => p.1 ++ "=" ++ p.2))

/-- Byte/lexicographic (code-point) string comparison, the ordering the
specification prescribes for the data-check string. -/
def byteCompare (a b : String) : Ordering :=
  cmpNatList (a.data.map Char.toNat) (b.data.map Char.toNat)

/-- Modelled from the spec: the data-check string with the keys sorted in
byte/lexicographic order ("sort by key using byte/lexicographic ordering"),
for comparison against what the source builds. -/
def buildDataCheckStringByteOrder (params : List (String × String)) : String :=
  String.intercalate "\n"
    ((sortByCmp (fun p q => byteCompare p.1 q.1) (params.filter (fun p => p.1 ≠ "hash"))).map
      (fun p => p.1 ++ "=" ++ p.2))

/-- The character repertoire of the keys Telegram actually sends: lowercase
ASCII letters and the underscore. -/
def keyCharOk (c : Char) : Bool := c = '_' ∨ ('a' ≤ c ∧ c ≤ 'z')

/-- `buildTelegramSecret`: HMAC-SHA256 keyed with the literal "WebAppData"
over the bot token. -/
def buildTelegramSecret (botToken : String) : List Nat :=
  hmacSha256 (utf8 "WebAppData") (utf8 botToken)

/-- `TelegramAuthError` carries a message and an HTTP status (default 401). -/
structure TelegramAuthError where
  message : String
  status : Nat
deriving Repr, DecidableEq

def authError (message : String) : TelegramAuthError := ⟨message, 401⟩

structure TelegramUser where
  id : Int
  first_name : String
  last_name : Option String
  username : Option String
  language_code : Option String
  photo_url : Option String
  is_premium : Option Bool
deriving Repr, DecidableEq

structure ValidatedInitData where
  authDate : Int
  hash : String
  user : TelegramUser
  queryId : Option String
  raw : String
deriving Repr, DecidableEq

/-- ASCII lowercasing (`hash.toLowerCase()`; the subsequent
`^[a-f0-9]{64}$` test makes the ASCII restriction immaterial). -/
def jsToLower (s : String) : String := String.mk (s.data.map Char.toLower)

/-- The test `/^[a-f0-9]{64}$/.test(hash)`. -/
def isHex64 (s : String) : Bool :=
  s.data.length = 64 ∧ s.data.all (fun c => ('a' ≤ c ∧ c ≤ 'f') ∨ ('0' ≤ c ∧ c ≤ '9'))

/-- `Buffer.from(hex, "hex")`: decode hex digit pairs to bytes (stopping at
the first non-hex pair; the callers have already validated the digits). -/
def hexDecodeBytes : List Char → List Nat
  | c1 :: c2 :: rest =>
    match hexVal c1, hexVal c2 with
    | some hi, some lo => (16 * hi + lo) :: hexDecodeBytes rest
    | _, _ => []
  | _ => []

/-- `Number(x)` for the `auth_date` extraction, composed with the
`Number.isInteger` test that immediately follows it in the source:
`none` means "not an integer" (NaN included).  `Number(null)` and
`Number("")`/whitespace-only are `0`; a trimmed optionally-signed decimal
digit string is its value.  Other JS numeric forms (hex literals, exponents,
fractions) fall outside everything this development evaluates and are mapped
to `none`. -/
def decDigits? (cs : List Char) : Option Nat :=
  if cs = [] then none
  else if cs.all (fun c => '0' ≤ c ∧ c ≤ '9') then
    some (cs.foldl (fun n c => n * 10 + (c.toNat - 48)) 0)
  else none

def jsNumberInt (v : Option String) : Option Int :=
  match v with
  | none => some 0
  | some s =>
    let t := (s.data.dropWhile Char.isWhitespace).reverse.dropWhile Char.isWhitespace |>.reverse
    match t with
    | [] => some 0
    | '-' :: ds => (decDigits? ds).map (fun n => -(n : Int))
    | '+' :: ds => (decDigits? ds).map (fun n => (n : Int))
    | ds => (decDigits? ds).map (fun n => (n : Int))

/-! ## `JSON.parse` for the `user` field

JSON values; numbers are modelled as integers only — the fractional and
exponent forms of the JSON number grammar make the schema's
`z.number().int()` test fail anyway, and no input this development evaluates
contains them (the parser rejects them, see `jsonNumTail`). -/

inductive Json where
  | null
  | bool (b : Bool)
  | num (n : Int)
  | str (s : String)
  | arr (items : List Json)
  | obj (fields : List (String × Json))
deriving Repr

/-- JSON string body after the opening quote: returns the decoded characters
and the remainder after the closing quote.  Surrogate `\uXXXX` pairs combine;
a lone surrogate is rejected (a JS string could hold it, a Lean `Char`
cannot; no evaluated input contains one). -/
def jsonEscChar (e : Char) : Option Char :=
  if e = '"' then some '"'
  else if e = '\\' then some '\\'
  else if e = '/' then some '/'
  else if e = 'b' then some (Char.ofNat 8)
  else if e = 'f' then some (Char.ofNat 12)
  else if e = 'n' then some (Char.ofNat 10)
  else if e = 'r' then some (Char.ofNat 13)
  else if e = 't' then some (Char.ofNat 9)
  else none

def hex4 (a b c d : Char) : Option Nat := do
  let ha ← hexVal a
  let hb ← hexVal b
  let hc ← hexVal c
  let hd ← hexVal d
  pure (((ha * 16 + hb) * 16 + hc) * 16 + hd)

def jsonStringBody : List Char → Option (List Char × List Char)
  | [] => none
  | '"' :: rest => some ([], rest)
  | '\\' :: 'u' :: a :: b :: c :: d :: '\\' :: 'u' :: e :: f :: g :: h :: rest =>
    match hex4 a b c d, hex4 e f g h with
    | some hi, some lo =>
      if 0xd800 ≤ hi ∧ hi < 0xdc00 then
        if 0xdc00 ≤ lo ∧ lo < 0xe000 then
          (jsonStringBody rest).map
            (fun p => (Char.ofNat (0x10000 + (hi - 0xd800) * 1024 + (lo - 0xdc00)) :: p.1, p.2))
        else none
      else
        if isScalarValue hi ∧ isScalarValue lo then
          (jsonStringBody rest).map (fun p => (Char.ofNat hi :: Char.ofNat lo :: p.1, p.2))
        else none
    | _, _ => none
  | '\\' :: 'u' :: a :: b :: c :: d :: rest =>
    match hex4 a b c d with
    | some n =>
      if isScalarValue n then (jsonStringBody rest).map (fun p => (Char.ofNat n :: p.1, p.2))
      else none
    | none => none
  | '\\' :: e :: rest =>
    match jsonEscChar e with
    | some c => (jsonStringBody rest).map (fun p => (c :: p.1, p.2))
    | none => none
  | c :: rest =>
    if c.toNat < 0x20 then none
    else (jsonStringBody rest).map (fun p => (c :: p.1, p.2))

def jsonWs (cs : List Char) : List Char :=
  cs.dropWhile (fun c => c = ' ' ∨ c = Char.ofNat 9 ∨ c = Char.ofNat 10 ∨ c = Char.ofNat 13)

def isJsonDigit (c : Char) : Bool := '0' ≤ c ∧ c ≤ '9'

/-- Digits of a JSON integer after the optional sign: `0` alone, or a nonzero
leading digit; a following `.`/`e`/`E` (fractional or exponent form) is
rejected rather than parsed, see `Json`. -/
def jsonIntDigits (cs : List Char) : Option (Nat × List Char) :=
  let ds := cs.takeWhile isJsonDigit
  let rest := cs.dropWhile isJsonDigit
  match ds with
  | [] => none
  | ['0'] =>
    match rest with
    | c :: _ => if c = '.' ∨ c = 'e' ∨ c = 'E' then none else some (0, rest)
    | [] => some (0, rest)
  | d :: _ =>
    if d = '0' then none
    else
      match rest with
      | c :: _ =>
        if c = '.' ∨ c = 'e' ∨ c = 'E' then none
        else some (ds.foldl (fun n c => n * 10 + (c.toNat - 48)) 0, rest)
      | [] => some (ds.foldl (fun n c => n * 10 + (c.toNat - 48)) 0, rest)

/-- What the fuel-indexed parser is currently parsing: a single value, the
items of an array, or the fields of an object. -/
inductive JsonPMode where
  | value
  | arrItems (acc : List Json) (first : Bool)
  | objFields (acc : List (String × Json)) (first : Bool)

def jsonP : Nat → JsonPMode → List Char → Option (Json × List Char)
  | 0, _, _ => none
  | fuel + 1, .value, cs =>
    match jsonWs cs with
    | [] => none
    | c :: rest =>
      if c = '"' then (jsonStringBody rest).map (fun p => (.str (String.mk p.1), p.2))
      else if c = Char.ofNat 123 then jsonP fuel (.objFields [] true) rest
      else if c = '[' then jsonP fuel (.arrItems [] true) rest
      else if c = 'n' then
        match rest with
        | 'u' :: 'l' :: 'l' :: rest2 => some (.null, rest2)
        | _ => none
      else if c = 't' then
        match rest with
        | 'r' :: 'u' :: 'e' :: rest2 => some (.bool true, rest2)
        | _ => none
      else if c = 'f' then
        match rest with
        | 'a' :: 'l' :: 's' :: 'e' :: rest2 => some (.bool false, rest2)
        | _ => none
      else if c = '-' then
        (jsonIntDigits rest).map (fun p => (.num (-(p.1 : Int)), p.2))
      else if isJsonDigit c then
        (jsonIntDigits (c :: rest)).map (fun p => (.num (p.1 : Int), p.2))
      else none
  | fuel + 1, .arrItems acc first, cs =>
    match jsonWs cs with
    | [] => none
    | c :: rest =>
      if c = ']' then some (.arr acc.reverse, rest)
      else
        match
          (if first then some (c :: rest)
           else if c = ',' then some rest else none) with
        | none => none
        | some cs2 =>
          match jsonP fuel .value cs2 with
          | none => none
          | some (v, rest2) => jsonP fuel (.arrItems (v :: acc) false) rest2
  | fuel + 1, .objFields acc first, cs =>
    match jsonWs cs with
    | [] => none
    | c :: rest =>
      if c = Char.ofNat 125 then some (.obj acc.reverse, rest)
      else
        match
          (if first then some (c :: rest)
           else if c = ',' then some rest else none) with
        | none => none
        | some cs2 =>
          match jsonWs cs2 with
          | '"' :: rest2 =>
            match jsonStringBody rest2 with
            | none => none
            | some (key, rest3) =>
              match jsonWs rest3 with
              | ':' :: rest4 =>
                match jsonP fuel .value rest4 with
                | none => none
                | some (v, rest5) => jsonP fuel (.objFields ((String.mk key, v) :: acc) false) rest5
              | _ => none
          | _ => none

/-- `JSON.parse`: one value, with only trailing whitespace after it. -/
def jsonParse (s : String) : Option Json :=
  match jsonP (s.data.length * 3 + 8) .value s.data with
  | some (v, rest) => if jsonWs rest = [] then some v else none
  | none => none

/-! ## The zod schema `telegramUserSchema` -/

/-- Property access on the parsed object: in a JS object built by
`JSON.parse`, a duplicated key holds its LAST value. -/
def jsonObjGet (fields : List (String × Json)) (k : String) : Option Json :=
  (fields.reverse.find? (fun p => p.1 = k)).map Prod.snd

/-- `new URL(s)` success, as `z.string().url()` tests it: a scheme (an ASCII
letter followed by letters, digits, `+`, `-`, `.`), a colon, and — for the
special schemes, which require an authority — `//` plus a nonempty
remainder.  An approximation of the WHATWG URL parser sufficient for the
inputs this development evaluates. -/
def isSchemeChar (c : Char) : Bool :=
  c.isAlpha ∨ c.isDigit ∨ c = '+' ∨ c = '-' ∨ c = '.'

def isValidUrl (s : String) : Bool :=
  let scheme := s.data.takeWhile (· ≠ ':')
  let rest := s.data.dropWhile (· ≠ ':')
  match scheme, rest with
  | c :: cs, _ :: afterColon =>
    c.isAlpha ∧ cs.all isSchemeChar ∧
      (if (String.mk (scheme.map Char.toLower)) ∈
          ["http", "https", "ws", "wss", "ftp"] then
        decide (afterColon.take 2 = ['/', '/'] ∧ afterColon.drop 2 ≠ [])
      else true)
  | _, _ => false

/-- zod: `z.string().optional()` at a JSON object key — absent is fine,
present requires a string (a present `null` fails: `optional` only admits
`undefined`).  `extra` is the additional refinement (`.url()` on
`photo_url`). -/
def zodOptionalString (fields : List (String × Json)) (k : String)
    (extra : String → Bool) : Option (Option String) :=
  match jsonObjGet fields k with
  | none => some none
  | some (.str s) => if extra s then some (some s) else none
  | some _ => none

def zodOptionalBool (fields : List (String × Json)) (k : String) : Option (Option Bool) :=
  match jsonObjGet fields k with
  | none => some none
  | some (.bool b) => some (some b)
  | some _ => none

/-- `telegramUserSchema.safeParse` on a parsed JSON value: an object with
`id` a positive integer, `first_name` a string of length ≥ 1, and the
optional string/url/boolean fields. -/
def telegramUserSchemaParse (j : Json) : Option TelegramUser :=
  match j with
  | .obj fields => do
    let idJ ← jsonObjGet fields "id"
    let idN ← match idJ with | .num n => some n | _ => none
    if idN ≤ 0 then none else
    let fnJ ← jsonObjGet fields "first_name"
    let fn ← match fnJ with | .str s => some s | _ => none
    if fn.data.length < 1 then none else
    let ln ← zodOptionalString fields "last_name" (fun _ => true)
    let un ← zodOptionalString fields "username" (fun _ => true)
    let lc ← zodOptionalString fields "language_code" (fun _ => true)
    let pu ← zodOptionalString fields "photo_url" isValidUrl
    let ip ← zodOptionalBool fields "is_premium"
    pure ⟨idN, fn, ln, un, lc, pu, ip⟩
  | _ => none

/-! ## `validateTelegramInitData` -/

/-- The tail of `validateTelegramInitData` from the `user` extraction on
(factored out for the proofs; the control flow is the source's). -/
def userStep (params : List (String × String)) (authDate : Int) (hash : String)
    (initData : String) : Except TelegramAuthError ValidatedInitData :=
  match jsGet params "user" with
  | none => .error (authError "Telegram user payload is missing")
  | some rawUser =>
    if rawUser = "" then .error (authError "Telegram user payload is missing")
    else
      match jsonParse rawUser with
      | none => .error (authError "Telegram user payload is invalid JSON")
      | some parsedUserPayload =>
        match telegramUserSchemaParse parsedUserPayload with
        | none => .error (authError "Telegram user payload is invalid")
        | some user => .ok ⟨authDate, hash, user, jsGet params "query_id", initData⟩

def validateTelegramInitData (initData botToken : String) (maxAgeSeconds : Int)
    (nowMs : Nat) : Except TelegramAuthError ValidatedInitData :=
  let params := parseQuery initData
  match (jsGet params "hash").map jsToLower with
  | none => .error (authError "Telegram hash is missing or malformed")
  | some hash =>
    if ¬ isHex64 hash then .error (authError "Telegram hash is missing or malformed")
    else
      let dataCheckString := buildDataCheckString params
      let expectedHash := bytesToHex (hmacSha256 (buildTelegramSecret botToken) (utf8 dataCheckString))
      let hashBuffer := hexDecodeBytes hash.data
      let expectedHashBuffer := hexDecodeBytes expectedHash.data
      if hashBuffer.length ≠ expectedHashBuffer.length ∨ hashBuffer ≠ expectedHashBuffer then
        .error (authError "Telegram initData signature mismatch")
      else
        match jsNumberInt (jsGet params "auth_date") with
        | none => .error (authError "Telegram auth_date is missing or invalid")
        | some authDate =>
          if authDate ≤ 0 then .error (authError "Telegram auth_date is missing or invalid")
          else
            let currentUnixTime : Int := (nowMs / 1000 : Nat)
            if currentUnixTime - authDate > maxAgeSeconds then
              .error (authError "Telegram initData has expired")
            else
              userStep params authDate hash initData

/-! ## The fixed-window rate limiter (`src/lib/http/rate-limit.ts`)

The module-level `RATE_LIMIT_STORE` map becomes explicit state: a list of
key→entry pairs in insertion order (`Map` iteration order); updating an
existing key keeps its position, as mutating the entry object in place
does. -/

structure RateLimitEntry where
  count : Nat
  resetAt : Nat
deriving Repr, DecidableEq

structure ConsumeRateLimitOptions where
  route : String
  key : String
  limit : Int
  windowMs : Nat
  now : Option Nat
deriving Repr, DecidableEq

structure RateLimitResult where
  limit : Int
  remaining : Int
  resetAt : Nat
  retryAfterSeconds : Nat
deriving Repr, DecidableEq

/-- `HttpRouteError` as the rate limiter constructs it
(`src/lib/http/route-error.ts`). -/
structure HttpRouteError where
  message : String
  status : Nat
  code : Option String
  headers : List (String × String)
deriving Repr, DecidableEq

/-- A throw out of `consumeRateLimit` is either one of the two precondition
`Error`s or the 429 `HttpRouteError`. -/
inductive RateLimitFailure where
  | configError (message : String)
  | httpError (e : HttpRouteError)
deriving Repr, DecidableEq

abbrev RateLimitStore := List (String × RateLimitEntry)

def storeGet (store : RateLimitStore) (k : String) : Option RateLimitEntry :=
  (store.find? (fun p => p.1 = k)).map Prod.snd

/-- `Map.set`: replace in place when the key exists, append otherwise. -/
def storeSet (store : RateLimitStore) (k : String) (v : RateLimitEntry) : RateLimitStore :=
  if store.any (fun p => p.1 = k) then
    store.map (fun p => if p.1 = k then (k, v) else p)
  else store ++ [(k, v)]

/-- `cleanupExpiredEntries`: delete every entry with `resetAt <= now`. -/
def cleanupExpiredEntries (now : Nat) (store : RateLimitStore) : RateLimitStore :=
  store.filter (fun p => ¬ p.2.resetAt ≤ now)

def getRateLimitHeaders (result : RateLimitResult) : List (String × String) :=
  [("x-ratelimit-limit", toString result.limit),
   ("x-ratelimit-remaining", toString result.remaining),
   ("x-ratelimit-reset", toString result.resetAt)]

/-- `Math.ceil(a / b)` on naturals. -/
def ceilDiv (a b : Nat) : Nat := (a + b - 1) / b

/-- `consumeRateLimit`, with the ambient `Date.now()` and the module-level
store passed explicitly; returns the store as left behind (also by a
throw — the increment is not rolled back) together with the result or the
failure. -/
def consumeRateLimit (options : ConsumeRateLimitOptions) (dateNowMs : Nat)
    (store : RateLimitStore) : RateLimitStore × Except RateLimitFailure RateLimitResult :=
  let now := options.now.getD dateNowMs
  if options.limit < 1 then
    (store, .error (.configError ("Rate limit for route " ++ options.route ++ " must be >= 1")))
  else if options.windowMs < 1000 then
    (store, .error (.configError
      ("Rate-limit window for route " ++ options.route ++ " must be >= 1000ms")))
  else
    let cleaned := cleanupExpiredEntries now store
    let storeKey := options.route ++ ":" ++ options.key
    match storeGet cleaned storeKey with
    | none =>
      let resetAt := now + options.windowMs
      (storeSet cleaned storeKey ⟨1, resetAt⟩,
       .ok ⟨options.limit, max (options.limit - 1) 0, resetAt, ceilDiv options.windowMs 1000⟩)
    | some existing =>
      if existing.resetAt ≤ now then
        let resetAt := now + options.windowMs
        (storeSet cleaned storeKey ⟨1, resetAt⟩,
         .ok ⟨options.limit, max (options.limit - 1) 0, resetAt, ceilDiv options.windowMs 1000⟩)
      else
        let newCount := existing.count + 1
        let store2 := storeSet cleaned storeKey ⟨newCount, existing.resetAt⟩
        let retryAfterSeconds := max (ceilDiv (existing.resetAt - now) 1000) 1
        let remaining := max (options.limit - newCount) 0
        if (newCount : Int) > options.limit then
          (store2, .error (.httpError
            ⟨"Too many requests", 429, some "rate_limited",
             getRateLimitHeaders ⟨options.limit, 0, existing.resetAt, retryAfterSeconds⟩ ++
               [("retry-after", toString retryAfterSeconds)]⟩))
        else
          (store2, .ok ⟨options.limit, remaining, existing.resetAt, retryAfterSeconds⟩)

/-! ## The retry/timeout envelope (`withTimeoutAndRetry`)

Error values are modelled by the shape the classifier inspects: whether the
value is an `Error` instance, its `name` and `message`, whether it is a
non-null object, and what `Number()` yields on its `statusCode`/`status`
properties (`none`: property absent; `some none`: present but `Number()` of
it is not finite; `some (some n)`: a finite integer — finite non-integers do
not occur in anything this development evaluates).

The asynchronous operation becomes a function from the attempt index to that
attempt's outcome; the timer/abort mechanics surface as attempts that fail
with an `AbortError`.  Backoff sleeping affects only timing, not control
flow, and the `onRetry` observer calls are collected in an output log. -/

structure JsError where
  isError : Bool
  name : String
  message : String
  isObject : Bool
  statusCode : Option (Option Int)
  status : Option (Option Int)
deriving Repr, DecidableEq

def isAbortError (e : JsError) : Bool := e.isError ∧ e.name = "AbortError"

def getStatusCode (e : JsError) : Option Int :=
  if ¬ e.isObject then none
  else
    match e.statusCode with
    | some (some n) => some n
    | _ =>
      match e.status with
      | some (some n) => some n
      | _ => none

def listContainsSub (sub l : List Char) : Bool :=
  l.tails.any (fun t => sub.isPrefixOf t)

/-- `message.toLowerCase().includes(sub)` for a lowercase `sub`. -/
def messageIncludes (message sub : String) : Bool :=
  listContainsSub sub.data (message.data.map Char.toLower)

def isRetryable (e : JsError) : Bool :=
  if isAbortError e then true
  else
    match getStatusCode e with
    | some statusCode => statusCode ≥ 500 ∨ statusCode = 429 ∨ statusCode = 408
    | none =>
      if ¬ e.isError then false
      else
        messageIncludes e.message "timeout" ∨
        messageIncludes e.message "network" ∨
        messageIncludes e.message "fetch failed" ∨
        messageIncludes e.message "temporarily unavailable" ∨
        messageIncludes e.message "econnreset" ∨
        messageIncludes e.message "enotfound"

/-- `new Error(operationName + " timed out after " + timeoutMs + "ms")`. -/
def timeoutError (operationName : String) (timeoutMs : Nat) : JsError :=
  ⟨true, "Error", operationName ++ " timed out after " ++ toString timeoutMs ++ "ms",
   true, none, none⟩

/-- The catch block's exit when no further attempt happens: a
cancellation-triggered failure becomes the dedicated timeout error, anything
else is re-thrown unchanged. -/
def retryFinal (operationName : String) (timeoutMs : Nat) (e : JsError) : JsError :=
  if isAbortError e then timeoutError operationName timeoutMs else e

/-- The attempt loop; `rem` is the number of retries still allowed, so the
attempt index is `retries - rem` and `shouldRetry = attempt < retries`
becomes `rem > 0`.  Returns the outcome and the `onRetry` call log. -/
def retryAux (ops : Nat → Except JsError α) (operationName : String) (timeoutMs : Nat)
    (attempt : Nat) : Nat → List (Nat × JsError) → Except JsError α × List (Nat × JsError)
  | rem, log =>
    match ops attempt with
    | .ok v => (.ok v, log)
    | .error e =>
      match rem with
      | 0 => (.error (retryFinal operationName timeoutMs e), log)
      | rem' + 1 =>
        if isRetryable e then
          retryAux ops operationName timeoutMs (attempt + 1) rem' (log ++ [(attempt + 1, e)])
        else (.error (retryFinal operationName timeoutMs e), log)

def withTimeoutAndRetry (ops : Nat → Except JsError α) (operationName : String)
    (timeoutMs retries : Nat) : Except JsError α × List (Nat × JsError) :=
  retryAux ops operationName timeoutMs 0 retries []

/-! ## Identity bootstrap (`ensureTelegramAuthUser`, `src/unnamed/part_000`)

The two sign-in attempts and the administrative creation are network calls
against Supabase; their outcomes enter the embedding as parameters: each
sign-in either yields an access token or fails (`signInTelegramUser` returns
`null` on any error or missing session), and creation either succeeds or
fails with a provider error message. -/

def deriveTelegramCredentials (telegramId botToken : String) : String × String :=
  ("tg_" ++ telegramId ++ "@telegram.local",
   "Tg!" ++ bytesToHex (hmacSha256 (utf8 botToken)
     (utf8 ("megamozg-telegram-auth:" ++ telegramId))))

def isAlreadyRegisteredError (message : String) : Bool :=
  messageIncludes message "already registered" ∨
  messageIncludes message "already been registered"

/-- `ensureTelegramAuthUser`: `signIn1`/`signIn2` are the outcomes of the
first and second `signInTelegramUser` call, `createError` the error message
of `adminClient.auth.admin.createUser` when it failed.  The result is the
access token or the thrown `Error`'s message. -/
def ensureTelegramAuthUser (signIn1 : Option String) (createError : Option String)
    (signIn2 : Option String) : Except String String :=
  match signIn1 with
  | some accessToken => .ok accessToken
  | none =>
    let createFatal : Bool :=
      match createError with
      | some message => ¬ isAlreadyRegisteredError message
      | none => false
    if createFatal then
      .error ("Failed to create Supabase user: " ++ createError.getD "")
    else
      match signIn2 with
      | some accessToken => .ok accessToken
      | none => .error "Failed to sign in Supabase user after creation"

/-! ## Scenario helpers and concrete inputs used by the theorems below -/

/-- `n` consecutive `consumeRateLimit` calls with the same options and
clock, each seeing the store the previous call left behind (also after a
throw). -/
def consumeN (options : ConsumeRateLimitOptions) (dateNowMs : Nat) :
    Nat → RateLimitStore → RateLimitStore
  | 0, s => s
  | n + 1, s => consumeN options dateNowMs n (consumeRateLimit options dateNowMs s).1

/-- The store keys are pairwise distinct — the invariant every store
reachable from the module's (initially empty) `Map` satisfies, since `Map`
keys are unique. -/
def keysNodup (s : RateLimitStore) : Prop := (s.map Prod.fst).Nodup

/-- A Telegram bot token, user and initData payloads for the concrete
evaluations. -/
def tBot : String := "123456:TEST_TOKEN"

def tUserEnc : String := "%7B%22id%22%3A42%2C%22first_name%22%3A%22Test%22%7D"

def tUser : TelegramUser := ⟨42, "Test", none, none, none, none, none⟩

def c1body : String := "auth_date=1000&query_id=AAA&user=" ++ tUserEnc

def c1hash : String :=
  bytesToHex (hmacSha256 (buildTelegramSecret tBot) (utf8 (buildDataCheckString (parseQuery c1body))))

def c1raw : String := c1body ++ "&hash=" ++ c1hash

/-- A payload in which `auth_date` occurs twice with different values. -/
def c3body : String := "auth_date=1000&auth_date=2000&user=" ++ tUserEnc

def c3hash : String :=
  bytesToHex (hmacSha256 (buildTelegramSecret tBot) (utf8 (buildDataCheckString (parseQuery c3body))))

def c3raw : String := c3body ++ "&hash=" ++ c3hash

/-- A query whose keys sort differently under `localeCompare` and under byte
order ("a" before "B" in ICU root collation, after it byte-wise). -/
def c2raw : String := "a=1&B=2&hash=x"

def e503 : JsError := ⟨true, "Error", "Service Unavailable", true, none, some (some 503)⟩

def e404 : JsError := ⟨true, "Error", "Not Found", true, none, some (some 404)⟩

def abortE : JsError := ⟨true, "AbortError", "This operation was aborted", true, none, none⟩

/-! # Theorems -/

/-! ## C8 — identity-bootstrap already-exists tolerance -/

/-- C8: `ensureTelegramAuthUser` returns the first sign-in's token on
success; on sign-in failure, a creation failure whose message does not match
the already-registered pattern is fatal (wrapped as "Failed to create
Supabase user: ..."); if creation succeeded or failed only as
already-registered, sign-in is retried exactly once, and failure of that
second sign-in is fatal with the error the specification describes as
"unable to establish session after account creation" (the source's message
string is "Failed to sign in Supabase user after creation"); nothing is
retried further. -/
theorem ensure_session_c8 :
    (∀ (t : String) (ce s2 : Option String), ensureTelegramAuthUser (some t) ce s2 = .ok t) ∧
    (∀ (m : String) (s2 : Option String), isAlreadyRegisteredError m = false →
      ensureTelegramAuthUser none (some m) s2 =
        .error ("Failed to create Supabase user: " ++ m)) ∧
    (∀ (m : String) (s2 : Option String), isAlreadyRegisteredError m = true →
      ensureTelegramAuthUser none (some m) s2 =
        (match s2 with
         | some tok => .ok tok
         | none => .error "Failed to sign in Supabase user after creation")) ∧
    (∀ s2 : Option String, ensureTelegramAuthUser none none s2 =
        (match s2 with
         | some tok => .ok tok
         | none => .error "Failed to sign in Supabase user after creation")) := by
  refine ⟨fun t ce s2 => rfl, fun m s2 h => ?_, fun m s2 h => ?_, fun s2 => rfl⟩
  · simp [ensureTelegramAuthUser, h]
  · simp [ensureTelegramAuthUser, h]

/-- Witness for C8 at concrete inputs. -/
theorem ensure_session_c8_witness :
    ensureTelegramAuthUser none (some "User already registered") (some "tok") = .ok "tok" ∧
    ensureTelegramAuthUser none (some "boom") none =
      .error ("Failed to create Supabase user: " ++ "boom") :=
  ⟨ensure_session_c8.2.2.1 "User already registered" (some "tok") (by decide),
   ensure_session_c8.2.1 "boom" none (by decide)⟩

/-! ## C6 — retry classification -/

/-- One unrolling of the attempt loop when every attempt fails with the same
retryable, non-abort error: all allowed retries are used and the error is
re-raised unchanged. -/
theorem retryAux_const_error {α : Type} (ops : Nat → Except JsError α)
    (operationName : String) (timeoutMs : Nat) (e : JsError)
    (hre : isRetryable e = true) (hab : isAbortError e = false)
    (hops : ∀ k, ops k = .error e) :
    ∀ (rem attempt : Nat) (log : List (Nat × JsError)),
      retryAux ops operationName timeoutMs attempt rem log =
        (.error e, log ++ (List.range rem).map (fun i => (attempt + 1 + i, e))) := by
  intro rem
  induction rem with
  | zero => intro attempt log; simp [retryAux, hops, retryFinal, hab]
  | succ rem ih =>
    intro attempt log
    rw [retryAux]
    simp only [hops, hre, if_pos]
    rw [ih (attempt + 1) (log ++ [(attempt + 1, e)])]
    simp only [List.range_succ_eq_map, List.map_cons, List.map_map, List.append_assoc,
      List.cons_append, List.nil_append]
    refine congrArg _ (congrArg _ (congrArg _ ?_))
    refine List.map_congr_left (fun i _ => ?_)
    simp [Function.comp]
    omega

/-- An error exposing a finite status in the retry set is classified
retryable. -/
theorem isRetryable_of_status (e : JsError) (n : Int) (hsc : getStatusCode e = some n)
    (h : n = 429 ∨ n = 408 ∨ 500 ≤ n) : isRetryable e = true := by
  by_cases hab : isAbortError e
  · simp [isRetryable, hab]
  · simp only [isRetryable, hab, Bool.false_eq_true, if_false, hsc]
    rcases h with h | h | h <;> simp [h]

/-- C6: the classification: retryable iff abort, or an exposed finite
numeric status (statusCode preferred over status) in {429, 408} or ≥ 500,
or — when no finite status is exposed — an Error whose lowercased message
contains one of the transient-failure markers; a 503 error is attempted
`retries + 1` times in total (the `onRetry` log records retries 1..retries),
while a 404 error is raised after the first attempt with no retry. -/
theorem retry_classification_c6 {α : Type} :
    (∀ e : JsError,
      isRetryable e = true ↔
        (isAbortError e = true ∨
          (∃ n : Int, getStatusCode e = some n ∧ (n = 429 ∨ n = 408 ∨ 500 ≤ n)) ∨
          (getStatusCode e = none ∧ e.isError = true ∧
            (messageIncludes e.message "timeout" = true ∨
             messageIncludes e.message "network" = true ∨
             messageIncludes e.message "fetch failed" = true ∨
             messageIncludes e.message "temporarily unavailable" = true ∨
             messageIncludes e.message "econnreset" = true ∨
             messageIncludes e.message "enotfound" = true)))) ∧
    (∀ (ops : Nat → Except JsError α) (operationName : String) (timeoutMs retries : Nat)
        (e : JsError), getStatusCode e = some 503 → isAbortError e = false →
        (∀ k, ops k = .error e) →
        withTimeoutAndRetry ops operationName timeoutMs retries =
          (.error e, (List.range retries).map (fun i => (i + 1, e)))) ∧
    (∀ (ops : Nat → Except JsError α) (operationName : String) (timeoutMs retries : Nat)
        (e : JsError), getStatusCode e = some 404 → isAbortError e = false →
        ops 0 = .error e →
        withTimeoutAndRetry ops operationName timeoutMs retries = (.error e, [])) := by
  refine ⟨fun e => ?_, fun ops operationName timeoutMs retries e hsc hab hops => ?_,
    fun ops operationName timeoutMs retries e hsc hab hops => ?_⟩
  · by_cases hab : isAbortError e
    · simp [isRetryable, hab]
    · simp only [hab, Bool.false_eq_true, false_or]
      cases hsc : getStatusCode e with
      | some n =>
        simp only [isRetryable, hab, Bool.false_eq_true, if_false, hsc]
        constructor
        · intro h
          refine Or.inl ⟨n, rfl, ?_⟩
          simp only [decide_eq_true_eq] at h
          omega
        · rintro (⟨m, hm, h⟩ | ⟨hnone, _⟩)
          · injection hm with hm
            subst hm
            simp only [decide_eq_true_eq]
            omega
          · exact absurd hnone (by simp)
      | none =>
        by_cases hier : e.isError
        · simp only [isRetryable, hab, Bool.false_eq_true, if_false, hsc, hier]
          simp [hier]
          try tauto
        · simp only [isRetryable, hab, Bool.false_eq_true, if_false, hsc]
          simp [hier]
  · have hre : isRetryable e = true := isRetryable_of_status e 503 hsc (by omega)
    rw [withTimeoutAndRetry, retryAux_const_error ops operationName timeoutMs e hre hab hops]
    simp only [List.nil_append]
    refine congrArg _ (List.map_congr_left (fun i _ => ?_))
    simp [Nat.add_comm]
  · have hre : isRetryable e = false := by
      simp [isRetryable, hab, hsc]
    rw [withTimeoutAndRetry]
    cases retries with
    | zero => simp [retryAux, hops, retryFinal, hab]
    | succ r => rw [retryAux]; simp [hops, hre, retryFinal, hab]

/-- Witness for C6: the 503 error is retried through all attempts, the 404
error is raised immediately. -/
theorem retry_classification_c6_witness :
    withTimeoutAndRetry (α := Unit) (fun _ => .error e503) "embedMemory" 8000 2 =
      (.error e503, (List.range 2).map (fun i => (i + 1, e503))) ∧
    withTimeoutAndRetry (α := Unit) (fun _ => .error e404) "embedMemory" 8000 2 =
      (.error e404, []) :=
  ⟨retry_classification_c6.2.1 (fun _ => .error e503) "embedMemory" 8000 2 e503 (by decide)
      (by decide) (fun k => rfl),
   retry_classification_c6.2.2 (fun _ => .error e404) "embedMemory" 8000 2 e404 (by decide)
      (by decide) rfl⟩

/-! ## C7 — timeout surfaces distinctly -/

/-- Single-step unfolding of `retryAux` on a successful attempt. -/
theorem retryAux_ok_eq {α : Type} (ops : Nat → Except JsError α) (operationName : String)
    (timeoutMs attempt rem : Nat) (log : List (Nat × JsError)) (v : α)
    (hops : ops attempt = .ok v) :
    retryAux ops operationName timeoutMs attempt rem log = (.ok v, log) := by
  rw [retryAux, hops]

/-- Single-step unfolding of `retryAux` on a failure with no retries left. -/
theorem retryAux_err_zero {α : Type} (ops : Nat → Except JsError α) (operationName : String)
    (timeoutMs attempt : Nat) (log : List (Nat × JsError)) (e : JsError)
    (hops : ops attempt = .error e) :
    retryAux ops operationName timeoutMs attempt 0 log =
      (.error (retryFinal operationName timeoutMs e), log) := by
  rw [retryAux, hops]

/-- Single-step unfolding of `retryAux` on a failure with retries left. -/
theorem retryAux_err_succ {α : Type} (ops : Nat → Except JsError α) (operationName : String)
    (timeoutMs attempt rem : Nat) (log : List (Nat × JsError)) (e : JsError)
    (hops : ops attempt = .error e) :
    retryAux ops operationName timeoutMs attempt (rem + 1) log =
      (if isRetryable e then
        retryAux ops operationName timeoutMs (attempt + 1) rem (log ++ [(attempt + 1, e)])
      else (.error (retryFinal operationName timeoutMs e), log)) := by
  rw [retryAux, hops]

/-- When the attempt loop ends in an error, some attempt `k` within the
allowed range failed, no further attempt was permitted (either the retries
were exhausted or the error was not retryable), and the raised error is the
dedicated timeout error exactly when that failure was an abort, the original
error unchanged otherwise. -/
theorem retryAux_error_inversion {α : Type} (ops : Nat → Except JsError α)
    (operationName : String) (timeoutMs : Nat) :
    ∀ (rem attempt : Nat) (log0 : List (Nat × JsError)) (r : JsError)
      (log : List (Nat × JsError)),
      retryAux ops operationName timeoutMs attempt rem log0 = (.error r, log) →
      ∃ k e, attempt ≤ k ∧ k ≤ attempt + rem ∧ ops k = .error e ∧
        (k = attempt + rem ∨ isRetryable e = false) ∧
        (isAbortError e = true → r = timeoutError operationName timeoutMs) ∧
        (isAbortError e = false → r = e) := by
  intro rem
  induction rem with
  | zero =>
    intro attempt log0 r log h
    cases hops : ops attempt with
    | ok v =>
      rw [retryAux_ok_eq ops operationName timeoutMs attempt 0 log0 v hops] at h
      exact absurd h (by simp)
    | error e =>
      rw [retryAux_err_zero ops operationName timeoutMs attempt log0 e hops] at h
      simp only [Prod.mk.injEq, Except.error.injEq] at h
      refine ⟨attempt, e, le_refl _, by omega, hops, by omega, fun hab => ?_, fun hab => ?_⟩
      · rw [← h.1]; simp [retryFinal, hab]
      · rw [← h.1]; simp [retryFinal, hab]
  | succ rem ih =>
    intro attempt log0 r log h
    cases hops : ops attempt with
    | ok v =>
      rw [retryAux_ok_eq ops operationName timeoutMs attempt (rem + 1) log0 v hops] at h
      exact absurd h (by simp)
    | error e =>
      rw [retryAux_err_succ ops operationName timeoutMs attempt rem log0 e hops] at h
      by_cases hre : isRetryable e
      · rw [if_pos (by simpa using hre)] at h
        obtain ⟨k, e2, hk1, hk2, hops2, hstop, habs⟩ :=
          ih (attempt + 1) (log0 ++ [(attempt + 1, e)]) r log h
        refine ⟨k, e2, by omega, by omega, hops2, ?_, habs⟩
        exact hstop.imp (fun hh => by omega) id
      · rw [if_neg (by simpa using hre)] at h
        simp only [Prod.mk.injEq, Except.error.injEq] at h
        refine ⟨attempt, e, le_refl _, by omega, hops,
          Or.inr (by simpa using hre), fun hab => ?_, fun hab => ?_⟩
        · rw [← h.1]; simp [retryFinal, hab]
        · rw [← h.1]; simp [retryFinal, hab]

/-- C7: when the envelope stops (non-retryable error or last allowed attempt
failed), the raised error is the dedicated timeout error — whose message
carries the operation name and the timeout value — iff the final failure was
an abort, and the original error object unchanged otherwise; in particular
an operation that never resolves before the timeout (every attempt fails by
abort), with zero retries, yields the timeout error. -/
theorem timeout_surfaces_c7 {α : Type} :
    (∀ (ops : Nat → Except JsError α) (operationName : String) (timeoutMs retries : Nat)
        (r : JsError) (log : List (Nat × JsError)),
      withTimeoutAndRetry ops operationName timeoutMs retries = (.error r, log) →
      ∃ k e, k ≤ retries ∧ ops k = .error e ∧
        (k = retries ∨ isRetryable e = false) ∧
        (isAbortError e = true → r = timeoutError operationName timeoutMs) ∧
        (isAbortError e = false → r = e)) ∧
    (∀ (ops : Nat → Except JsError α) (operationName : String) (timeoutMs : Nat) (e : JsError),
      isAbortError e = true → ops 0 = .error e →
      withTimeoutAndRetry ops operationName timeoutMs 0 =
        (.error (timeoutError operationName timeoutMs), []) ∧
      (timeoutError operationName timeoutMs).message =
        operationName ++ " timed out after " ++ toString timeoutMs ++ "ms") := by
  constructor
  · intro ops operationName timeoutMs retries r log h
    obtain ⟨k, e, _, hk2, hops, hstop, habs⟩ :=
      retryAux_error_inversion ops operationName timeoutMs retries 0 [] r log h
    exact ⟨k, e, by omega, hops, hstop.imp (fun hh => by omega) id, habs⟩
  · intro ops operationName timeoutMs e hab hops
    refine ⟨?_, rfl⟩
    rw [withTimeoutAndRetry, retryAux, hops]
    simp [retryFinal, hab]

/-- Witness for C7: a constantly-aborting operation with zero retries yields
the timeout error. -/
theorem timeout_surfaces_c7_witness :
    withTimeoutAndRetry (α := Unit) (fun _ => .error abortE) "completeWithMemory" 30000 0 =
      (.error (timeoutError "completeWithMemory" 30000), []) ∧
    (timeoutError "completeWithMemory" 30000).message =
      "completeWithMemory" ++ " timed out after " ++ toString 30000 ++ "ms" :=
  timeout_surfaces_c7.2 (fun _ => .error abortE) "completeWithMemory" 30000 abortE
    (by decide) rfl

/-! ## Store lemmas for the rate limiter -/

theorem storeGet_cons (k' : String) (v : RateLimitEntry) (s : RateLimitStore) (k : String) :
    storeGet ((k', v) :: s) k = if k' = k then some v else storeGet s k := by
  by_cases h : k' = k
  · simp [storeGet, List.find?_cons, h]
  · simp [storeGet, List.find?_cons, h]

theorem storeGet_eq_none_of_not_key (s : RateLimitStore) (k : String)
    (h : k ∉ s.map Prod.fst) : storeGet s k = none := by
  have hfind : List.find? (fun p => decide (p.1 = k)) s = none := by
    rw [List.find?_eq_none]
    intro p hp
    simp only [decide_eq_true_eq]
    intro hk
    exact h (hk ▸ List.mem_map_of_mem Prod.fst hp)
  simp [storeGet, hfind]

theorem find_map_repl (k : String) (v : RateLimitEntry) :
    ∀ s : RateLimitStore, s.any (fun p => p.1 = k) = true →
      storeGet (s.map (fun p => if p.1 = k then (k, v) else p)) k = some v := by
  intro s
  induction s with
  | nil => simp
  | cons p rest ih =>
    intro hany
    by_cases hpk : p.1 = k
    · simp only [List.map_cons, if_pos hpk]
      rw [storeGet_cons]
      simp
    · simp only [List.map_cons, if_neg hpk]
      rw [storeGet_cons, if_neg hpk]
      apply ih
      simpa [hpk] using hany

theorem find_map_repl_ne (k : String) (v : RateLimitEntry) (k' : String) (hne : k' ≠ k) :
    ∀ s : RateLimitStore,
      storeGet (s.map (fun p => if p.1 = k then (k, v) else p)) k' = storeGet s k' := by
  intro s
  induction s with
  | nil => simp
  | cons p rest ih =>
    by_cases hpk : p.1 = k
    · simp only [List.map_cons, if_pos hpk]
      rw [storeGet_cons, if_neg (fun hh => hne hh.symm), storeGet_cons,
        if_neg (fun hh => hne (hpk ▸ hh).symm), ih]
    · simp only [List.map_cons, if_neg hpk]
      rw [storeGet_cons, storeGet_cons, ih]

theorem storeGet_storeSet_self (s : RateLimitStore) (k : String) (v : RateLimitEntry) :
    storeGet (storeSet s k v) k = some v := by
  rw [storeSet]
  by_cases hany : s.any (fun p => p.1 = k) = true
  · rw [if_pos hany]
    exact find_map_repl k v s hany
  · rw [if_neg hany]
    have hfind : List.find? (fun p => decide (p.1 = k)) s = none := by
      rw [List.find?_eq_none]
      intro p hp
      simp only [decide_eq_true_eq]
      intro hk
      exact hany (List.any_eq_true.mpr ⟨p, hp, by simp [hk]⟩)
    simp [storeGet, List.find?_append, hfind, List.find?_cons]

theorem storeGet_storeSet_ne (s : RateLimitStore) (k : String) (v : RateLimitEntry)
    (k' : String) (hne : k' ≠ k) : storeGet (storeSet s k v) k' = storeGet s k' := by
  rw [storeSet]
  by_cases hany : s.any (fun p => p.1 = k) = true
  · rw [if_pos hany]
    exact find_map_repl_ne k v k' hne s
  · rw [if_neg hany]
    simp only [storeGet, List.find?_append]
    cases hf : List.find? (fun p => p.1 = k') s with
    | some p => simp
    | none => simp [List.find?_cons, Ne.symm hne]

theorem storeGet_cleanup_live_entry (now : Nat) (k : String) (en : RateLimitEntry) :
    ∀ s : RateLimitStore, storeGet (cleanupExpiredEntries now s) k = some en →
      now < en.resetAt := by
  intro s h
  simp only [storeGet, Option.map_eq_some'] at h
  obtain ⟨p, hfind, hsnd⟩ := h
  have hmem := List.mem_of_find?_eq_some hfind
  have hpred := (List.mem_filter.mp hmem).2
  simp only [decide_eq_true_eq] at hpred
  rw [hsnd] at hpred
  omega

theorem storeGet_cleanup_of_live (now : Nat) (k : String) (en : RateLimitEntry)
    (hen : ¬ en.resetAt ≤ now) :
    ∀ s : RateLimitStore, storeGet s k = some en →
      storeGet (cleanupExpiredEntries now s) k = some en := by
  intro s
  induction s with
  | nil => simp [storeGet]
  | cons p rest ih =>
    obtain ⟨pk, pv⟩ := p
    intro h
    rw [storeGet_cons] at h
    by_cases hpk : pk = k
    · rw [if_pos hpk] at h
      injection h with h
      simp only [cleanupExpiredEntries, List.filter_cons]
      rw [show (decide ¬ pv.resetAt ≤ now) = true by simp [h]; omega, if_pos rfl,
        storeGet_cons, if_pos hpk, h]
    · rw [if_neg hpk] at h
      simp only [cleanupExpiredEntries, List.filter_cons] at *
      by_cases hq : pv.resetAt ≤ now
      · rw [show (decide ¬ pv.resetAt ≤ now) = false by simp; omega, if_neg (by simp)]
        exact ih h
      · rw [show (decide ¬ pv.resetAt ≤ now) = true by simp; omega, if_pos rfl,
          storeGet_cons, if_neg hpk]
        exact ih h

theorem storeGet_cleanup_of_none (now : Nat) (k : String) (s : RateLimitStore)
    (h : storeGet s k = none) : storeGet (cleanupExpiredEntries now s) k = none := by
  simp only [storeGet, Option.map_eq_none'] at *
  rw [List.find?_eq_none] at *
  intro p hp
  exact h p (List.mem_of_mem_filter hp)

theorem storeGet_cleanup_of_expired (now : Nat) (k : String) (en : RateLimitEntry)
    (hen : en.resetAt ≤ now) :
    ∀ s : RateLimitStore, keysNodup s → storeGet s k = some en →
      storeGet (cleanupExpiredEntries now s) k = none := by
  intro s
  induction s with
  | nil => simp [storeGet]
  | cons p rest ih =>
    obtain ⟨pk, pv⟩ := p
    intro hnd h
    have hnd' := hnd
    simp only [keysNodup, List.map_cons, List.nodup_cons] at hnd'
    rw [storeGet_cons] at h
    by_cases hpk : pk = k
    · rw [if_pos hpk] at h
      injection h with h
      simp only [cleanupExpiredEntries, List.filter_cons]
      rw [show (decide ¬ pv.resetAt ≤ now) = false by simp [h]; omega, if_neg (by simp)]
      apply storeGet_cleanup_of_none
      apply storeGet_eq_none_of_not_key
      rw [← hpk]
      exact fun hmem => hnd'.1 hmem
    · rw [if_neg hpk] at h
      simp only [cleanupExpiredEntries, List.filter_cons]
      by_cases hq : pv.resetAt ≤ now
      · rw [show (decide ¬ pv.resetAt ≤ now) = false by simp; omega, if_neg (by simp)]
        exact ih hnd'.2 h
      · rw [show (decide ¬ pv.resetAt ≤ now) = true by simp; omega, if_pos rfl,
          storeGet_cons, if_neg hpk]
        exact ih hnd'.2 h

/-! ## Branch lemmas for `consumeRateLimit` -/

/-- The new-window branch: no (live) entry for the composite key after the
sweep. -/
theorem consumeRateLimit_new_window (options : ConsumeRateLimitOptions) (dateNowMs : Nat)
    (store : RateLimitStore) (h1 : 1 ≤ options.limit) (h2 : 1000 ≤ options.windowMs)
    (h3 : storeGet (cleanupExpiredEntries (options.now.getD dateNowMs) store)
        (options.route ++ ":" ++ options.key) = none) :
    consumeRateLimit options dateNowMs store =
      (storeSet (cleanupExpiredEntries (options.now.getD dateNowMs) store)
        (options.route ++ ":" ++ options.key)
        ⟨1, options.now.getD dateNowMs + options.windowMs⟩,
       .ok ⟨options.limit, options.limit - 1, options.now.getD dateNowMs + options.windowMs,
         ceilDiv options.windowMs 1000⟩) := by
  simp only [consumeRateLimit]
  rw [if_neg (by omega), if_neg (by omega), h3,
    max_eq_left (by omega : (0 : Int) ≤ options.limit - 1)]

/-- The in-window branch: a live entry exists; the count is incremented in
place and the call succeeds or throws 429 according to the new count. -/
theorem consumeRateLimit_in_window (options : ConsumeRateLimitOptions) (dateNowMs : Nat)
    (store : RateLimitStore) (en : RateLimitEntry) (h1 : 1 ≤ options.limit)
    (h2 : 1000 ≤ options.windowMs)
    (hget : storeGet (cleanupExpiredEntries (options.now.getD dateNowMs) store)
        (options.route ++ ":" ++ options.key) = some en)
    (hlive : ¬ en.resetAt ≤ options.now.getD dateNowMs) :
    consumeRateLimit options dateNowMs store =
      (if ((en.count + 1 : Nat) : Int) > options.limit then
        (storeSet (cleanupExpiredEntries (options.now.getD dateNowMs) store)
          (options.route ++ ":" ++ options.key) ⟨en.count + 1, en.resetAt⟩,
         .error (.httpError
          ⟨"Too many requests", 429, some "rate_limited",
           getRateLimitHeaders ⟨options.limit, 0, en.resetAt,
             max (ceilDiv (en.resetAt - options.now.getD dateNowMs) 1000) 1⟩ ++
             [("retry-after",
               toString (max (ceilDiv (en.resetAt - options.now.getD dateNowMs) 1000) 1))]⟩))
      else
        (storeSet (cleanupExpiredEntries (options.now.getD dateNowMs) store)
          (options.route ++ ":" ++ options.key) ⟨en.count + 1, en.resetAt⟩,
         .ok ⟨options.limit, max (options.limit - ((en.count + 1 : Nat) : Int)) 0, en.resetAt,
           max (ceilDiv (en.resetAt - options.now.getD dateNowMs) 1000) 1⟩)) := by
  simp only [consumeRateLimit]
  rw [if_neg (by omega), if_neg (by omega), hget]
  simp only [hlive, if_false]

/-! ## C5 — fixed-window rate limiting -/

/-- C5: a call finding no entry — or only an expired one — for its
`(route, key)` composite starts a new window (stored count 1,
`reset_at = now + window`, returned remaining `limit − 1`); otherwise the
count increments, and once the post-increment count exceeds the limit the
call throws 429 carrying `retry-after` of `max(ceil((reset_at − now)/1s), 1)`
seconds and zero remaining; with limit 3 and a 60 s window, four same-key
calls inside one window return remaining 2, 1, 0 and the fourth throws 429
with `retry-after` between 1 and 60. -/
theorem consume_rate_limit_c5 :
    (∀ (options : ConsumeRateLimitOptions) (dateNowMs : Nat) (store : RateLimitStore),
      1 ≤ options.limit → 1000 ≤ options.windowMs →
      (storeGet store (options.route ++ ":" ++ options.key) = none ∨
        (keysNodup store ∧ ∃ en, storeGet store (options.route ++ ":" ++ options.key) = some en ∧
          en.resetAt ≤ options.now.getD dateNowMs)) →
      (consumeRateLimit options dateNowMs store).2 =
        .ok ⟨options.limit, options.limit - 1, options.now.getD dateNowMs + options.windowMs,
          ceilDiv options.windowMs 1000⟩ ∧
      storeGet (consumeRateLimit options dateNowMs store).1
          (options.route ++ ":" ++ options.key) =
        some ⟨1, options.now.getD dateNowMs + options.windowMs⟩) ∧
    (∀ (options : ConsumeRateLimitOptions) (dateNowMs : Nat) (store : RateLimitStore)
        (en : RateLimitEntry), 1 ≤ options.limit → 1000 ≤ options.windowMs →
      storeGet store (options.route ++ ":" ++ options.key) = some en →
      ¬ en.resetAt ≤ options.now.getD dateNowMs →
      (((en.count + 1 : Nat) : Int) ≤ options.limit →
        (consumeRateLimit options dateNowMs store).2 =
          .ok ⟨options.limit, max (options.limit - ((en.count + 1 : Nat) : Int)) 0, en.resetAt,
            max (ceilDiv (en.resetAt - options.now.getD dateNowMs) 1000) 1⟩) ∧
      (((en.count + 1 : Nat) : Int) > options.limit →
        (consumeRateLimit options dateNowMs store).2 =
          .error (.httpError
            ⟨"Too many requests", 429, some "rate_limited",
             getRateLimitHeaders ⟨options.limit, 0, en.resetAt,
               max (ceilDiv (en.resetAt - options.now.getD dateNowMs) 1000) 1⟩ ++
               [("retry-after",
                 toString (max (ceilDiv (en.resetAt - options.now.getD dateNowMs) 1000) 1))]⟩))) ∧
    (∀ (route key : String) (t1 t2 t3 t4 : Nat), t1 ≤ t2 → t2 ≤ t3 → t3 ≤ t4 →
      t4 < t1 + 60000 →
      (∃ a, (consumeRateLimit ⟨route, key, 3, 60000, none⟩ t1 []).2 = .ok a ∧
        a.remaining = 2) ∧
      (∃ b, (consumeRateLimit ⟨route, key, 3, 60000, none⟩ t2
          (consumeRateLimit ⟨route, key, 3, 60000, none⟩ t1 []).1).2 = .ok b ∧
        b.remaining = 1) ∧
      (∃ c, (consumeRateLimit ⟨route, key, 3, 60000, none⟩ t3
          (consumeRateLimit ⟨route, key, 3, 60000, none⟩ t2
            (consumeRateLimit ⟨route, key, 3, 60000, none⟩ t1 []).1).1).2 = .ok c ∧
        c.remaining = 0) ∧
      (∃ he ra, (consumeRateLimit ⟨route, key, 3, 60000, none⟩ t4
          (consumeRateLimit ⟨route, key, 3, 60000, none⟩ t3
            (consumeRateLimit ⟨route, key, 3, 60000, none⟩ t2
              (consumeRateLimit ⟨route, key, 3, 60000, none⟩ t1 []).1).1).1).2 =
          .error (.httpError he) ∧ he.status = 429 ∧
          ("retry-after", toString ra) ∈ he.headers ∧ 1 ≤ ra ∧ ra ≤ 60)) := by
  refine ⟨?_, ?_, ?_⟩
  · intro options dateNowMs store h1 h2 hcase
    have h3 : storeGet (cleanupExpiredEntries (options.now.getD dateNowMs) store)
        (options.route ++ ":" ++ options.key) = none := by
      rcases hcase with hnone | ⟨hnd, en, hsome, hexp⟩
      · exact storeGet_cleanup_of_none _ _ _ hnone
      · exact storeGet_cleanup_of_expired _ _ en hexp store hnd hsome
    rw [consumeRateLimit_new_window options dateNowMs store h1 h2 h3]
    exact ⟨rfl, storeGet_storeSet_self _ _ _⟩
  · intro options dateNowMs store en h1 h2 hget hlive
    have hget' : storeGet (cleanupExpiredEntries (options.now.getD dateNowMs) store)
        (options.route ++ ":" ++ options.key) = some en :=
      storeGet_cleanup_of_live _ _ en hlive store hget
    rw [consumeRateLimit_in_window options dateNowMs store en h1 h2 hget' hlive]
    constructor
    · intro hle
      rw [if_neg (by omega)]
    · intro hgt
      rw [if_pos (by omega)]
  · intro route key t1 t2 t3 t4 h12 h23 h34 h4w
    have hwin : (1000 : Nat) ≤ 60000 := by omega
    have hlim : (1 : Int) ≤ 3 := by omega
    have e1 := consumeRateLimit_new_window ⟨route, key, 3, 60000, none⟩ t1 [] hlim hwin rfl
    have hs1 : (consumeRateLimit ⟨route, key, 3, 60000, none⟩ t1 []).1 =
        [(route ++ ":" ++ key, ⟨1, t1 + 60000⟩)] := by
      rw [e1]; simp [storeSet, cleanupExpiredEntries]
    have hc2get : storeGet [(route ++ ":" ++ key, (⟨1, t1 + 60000⟩ : RateLimitEntry))]
        (route ++ ":" ++ key) = some ⟨1, t1 + 60000⟩ := by
      rw [storeGet_cons, if_pos rfl]
    have hlive2 : ¬ (t1 + 60000 : Nat) ≤ t2 := by omega
    have hc2get' : storeGet (cleanupExpiredEntries t2
        [(route ++ ":" ++ key, (⟨1, t1 + 60000⟩ : RateLimitEntry))]) (route ++ ":" ++ key) =
        some ⟨1, t1 + 60000⟩ :=
      storeGet_cleanup_of_live t2 _ _ hlive2 _ hc2get
    have e2 := consumeRateLimit_in_window ⟨route, key, 3, 60000, none⟩ t2
      [(route ++ ":" ++ key, ⟨1, t1 + 60000⟩)] ⟨1, t1 + 60000⟩ hlim hwin hc2get' hlive2
    rw [if_neg (by norm_num)] at e2
    have hs2 : (consumeRateLimit ⟨route, key, 3, 60000, none⟩ t2
        [(route ++ ":" ++ key, ⟨1, t1 + 60000⟩)]).1 =
        [(route ++ ":" ++ key, ⟨2, t1 + 60000⟩)] := by
      rw [e2]
      simp [storeSet, cleanupExpiredEntries, List.filter_cons,
        show t2 < t1 + 60000 by omega]
    have hlive3 : ¬ (t1 + 60000 : Nat) ≤ t3 := by omega
    have hc3get : storeGet [(route ++ ":" ++ key, (⟨2, t1 + 60000⟩ : RateLimitEntry))]
        (route ++ ":" ++ key) = some ⟨2, t1 + 60000⟩ := by
      rw [storeGet_cons, if_pos rfl]
    have hc3get' := storeGet_cleanup_of_live t3 _ _ hlive3 _ hc3get
    have e3 := consumeRateLimit_in_window ⟨route, key, 3, 60000, none⟩ t3
      [(route ++ ":" ++ key, ⟨2, t1 + 60000⟩)] ⟨2, t1 + 60000⟩ hlim hwin hc3get' hlive3
    rw [if_neg (by norm_num)] at e3
    have hs3 : (consumeRateLimit ⟨route, key, 3, 60000, none⟩ t3
        [(route ++ ":" ++ key, ⟨2, t1 + 60000⟩)]).1 =
        [(route ++ ":" ++ key, ⟨3, t1 + 60000⟩)] := by
      rw [e3]
      simp [storeSet, cleanupExpiredEntries, List.filter_cons,
        show t3 < t1 + 60000 by omega]
    have hlive4 : ¬ (t1 + 60000 : Nat) ≤ t4 := by omega
    have hc4get : storeGet [(route ++ ":" ++ key, (⟨3, t1 + 60000⟩ : RateLimitEntry))]
        (route ++ ":" ++ key) = some ⟨3, t1 + 60000⟩ := by
      rw [storeGet_cons, if_pos rfl]
    have hc4get' := storeGet_cleanup_of_live t4 _ _ hlive4 _ hc4get
    have e4 := consumeRateLimit_in_window ⟨route, key, 3, 60000, none⟩ t4
      [(route ++ ":" ++ key, ⟨3, t1 + 60000⟩)] ⟨3, t1 + 60000⟩ hlim hwin hc4get' hlive4
    rw [if_pos (by norm_num)] at e4
    refine ⟨⟨_, by rw [e1], rfl⟩, ?_, ?_, ?_⟩
    · rw [hs1]
      exact ⟨_, by rw [e2], by norm_num⟩
    · rw [hs1, hs2]
      exact ⟨_, by rw [e3], by norm_num⟩
    · rw [hs1, hs2, hs3]
      refine ⟨_, max (ceilDiv (t1 + 60000 - t4) 1000) 1, by rw [e4], rfl, ?_, ?_, ?_⟩
      · simp
      · exact le_max_right _ _
      · have : ceilDiv (t1 + 60000 - t4) 1000 ≤ 60 := by
          simp only [ceilDiv]
          omega
        omega

/-- Witness for C5: the four-call scenario at concrete times and key. -/
theorem consume_rate_limit_c5_witness :
    (∃ a, (consumeRateLimit ⟨"/api/validate", "k", 3, 60000, none⟩ 0 []).2 = .ok a ∧
      a.remaining = 2) ∧
    (∃ b, (consumeRateLimit ⟨"/api/validate", "k", 3, 60000, none⟩ 0
        (consumeRateLimit ⟨"/api/validate", "k", 3, 60000, none⟩ 0 []).1).2 = .ok b ∧
      b.remaining = 1) ∧
    (∃ c, (consumeRateLimit ⟨"/api/validate", "k", 3, 60000, none⟩ 0
        (consumeRateLimit ⟨"/api/validate", "k", 3, 60000, none⟩ 0
          (consumeRateLimit ⟨"/api/validate", "k", 3, 60000, none⟩ 0 []).1).1).2 = .ok c ∧
      c.remaining = 0) ∧
    (∃ he ra, (consumeRateLimit ⟨"/api/validate", "k", 3, 60000, none⟩ 0
        (consumeRateLimit ⟨"/api/validate", "k", 3, 60000, none⟩ 0
          (consumeRateLimit ⟨"/api/validate", "k", 3, 60000, none⟩ 0
            (consumeRateLimit ⟨"/api/validate", "k", 3, 60000, none⟩ 0 []).1).1).1).2 =
        .error (.httpError he) ∧ he.status = 429 ∧
        ("retry-after", toString ra) ∈ he.headers ∧ 1 ≤ ra ∧ ra ≤ 60) :=
  consume_rate_limit_c5.2.2 "/api/validate" "k" 0 0 0 0 (by omega) (by omega) (by omega)
    (by omega)

/-! ## C9 — over-limit calls still mutate the window state -/

/-- The store evolution of repeated same-clock calls on a single live
entry: each call increments the stored count in place, also when it
throws. -/
theorem consumeN_single (options : ConsumeRateLimitOptions) (dateNowMs : Nat)
    (h1 : 1 ≤ options.limit) (h2 : 1000 ≤ options.windowMs) :
    ∀ (m c : Nat),
      consumeN options dateNowMs m
        [(options.route ++ ":" ++ options.key,
          ⟨c, options.now.getD dateNowMs + options.windowMs⟩)] =
      [(options.route ++ ":" ++ options.key,
        ⟨c + m, options.now.getD dateNowMs + options.windowMs⟩)] := by
  intro m
  induction m with
  | zero => intro c; simp [consumeN]
  | succ m ih =>
    intro c
    rw [consumeN]
    have hlive : ¬ (options.now.getD dateNowMs + options.windowMs : Nat) ≤
        options.now.getD dateNowMs := by omega
    have hget : storeGet [(options.route ++ ":" ++ options.key,
        (⟨c, options.now.getD dateNowMs + options.windowMs⟩ : RateLimitEntry))]
        (options.route ++ ":" ++ options.key) =
        some ⟨c, options.now.getD dateNowMs + options.windowMs⟩ := by
      rw [storeGet_cons, if_pos rfl]
    have hget' := storeGet_cleanup_of_live (options.now.getD dateNowMs) _ _ hlive _ hget
    have e := consumeRateLimit_in_window options dateNowMs _ _ h1 h2 hget' hlive
    have hfst : (consumeRateLimit options dateNowMs
        [(options.route ++ ":" ++ options.key,
          ⟨c, options.now.getD dateNowMs + options.windowMs⟩)]).1 =
        [(options.route ++ ":" ++ options.key,
          ⟨c + 1, options.now.getD dateNowMs + options.windowMs⟩)] := by
      rw [e]
      have hcond : options.now.getD dateNowMs <
          options.now.getD dateNowMs + options.windowMs := by omega
      by_cases hc : ((c + 1 : Nat) : Int) > options.limit
      · rw [if_pos hc]
        simp [storeSet, cleanupExpiredEntries, List.filter_cons, hcond]
      · rw [if_neg hc]
        simp [storeSet, cleanupExpiredEntries, List.filter_cons, hcond]
    rw [hfst, ih (c + 1)]
    have : c + 1 + m = c + (m + 1) := by omega
    rw [this]

/-- C9: an over-limit call throws 429 but leaves the incremented count in the
store with `reset_at` unchanged; `n` consecutive same-key calls inside one
window leave a stored count of `n` even when `n` exceeds the limit. -/
theorem rate_limit_overlimit_mutation_c9 :
    (∀ (options : ConsumeRateLimitOptions) (dateNowMs : Nat) (store : RateLimitStore)
        (en : RateLimitEntry), 1 ≤ options.limit → 1000 ≤ options.windowMs →
      storeGet store (options.route ++ ":" ++ options.key) = some en →
      ¬ en.resetAt ≤ options.now.getD dateNowMs →
      ((en.count + 1 : Nat) : Int) > options.limit →
      (∃ he, (consumeRateLimit options dateNowMs store).2 = .error (.httpError he) ∧
        he.status = 429) ∧
      storeGet (consumeRateLimit options dateNowMs store).1
          (options.route ++ ":" ++ options.key) = some ⟨en.count + 1, en.resetAt⟩) ∧
    (∀ (options : ConsumeRateLimitOptions) (dateNowMs : Nat) (n : Nat),
      1 ≤ options.limit → 1000 ≤ options.windowMs → 1 ≤ n →
      storeGet (consumeN options dateNowMs n [])
          (options.route ++ ":" ++ options.key) =
        some ⟨n, options.now.getD dateNowMs + options.windowMs⟩) := by
  constructor
  · intro options dateNowMs store en h1 h2 hget hlive hover
    have hget' := storeGet_cleanup_of_live (options.now.getD dateNowMs) _ _ hlive _ hget
    rw [consumeRateLimit_in_window options dateNowMs store en h1 h2 hget' hlive,
      if_pos hover]
    exact ⟨⟨_, rfl, rfl⟩, storeGet_storeSet_self _ _ _⟩
  · intro options dateNowMs n h1 h2 hn
    obtain ⟨m, rfl⟩ : ∃ m, n = m + 1 := ⟨n - 1, by omega⟩
    rw [consumeN]
    have e1 := consumeRateLimit_new_window options dateNowMs [] h1 h2 rfl
    have hfst : (consumeRateLimit options dateNowMs []).1 =
        [(options.route ++ ":" ++ options.key,
          ⟨1, options.now.getD dateNowMs + options.windowMs⟩)] := by
      rw [e1]; simp [storeSet, cleanupExpiredEntries]
    rw [hfst, consumeN_single options dateNowMs h1 h2 m 1]
    rw [show 1 + m = m + 1 by omega, storeGet_cons, if_pos rfl]

/-- Witness for C9: five same-key calls against limit 3 leave a stored count
of 5. -/
theorem rate_limit_overlimit_mutation_c9_witness :
    storeGet (consumeN ⟨"/api/validate", "k", 3, 60000, none⟩ 0 5 [])
        ("/api/validate" ++ ":" ++ "k") = some ⟨5, 0 + 60000⟩ :=
  rate_limit_overlimit_mutation_c9.2 ⟨"/api/validate", "k", 3, 60000, none⟩ 0 5 (by decide)
    (by decide) (by omega)

/-! ## C10 — rate-limit table freshness invariant -/

/-- C10: after any `consumeRateLimit` call satisfying the validated
preconditions — whether it returned or threw — every entry left in the store
has `resetAt` strictly in the future of the call's `now`. -/
theorem rate_limit_freshness_c10 :
    ∀ (options : ConsumeRateLimitOptions) (dateNowMs : Nat) (store : RateLimitStore),
      1 ≤ options.limit → 1000 ≤ options.windowMs →
      ∀ (k : String) (en : RateLimitEntry),
        storeGet (consumeRateLimit options dateNowMs store).1 k = some en →
        options.now.getD dateNowMs < en.resetAt := by
  intro options dateNowMs store h1 h2 k en hen
  cases hget : storeGet (cleanupExpiredEntries (options.now.getD dateNowMs) store)
      (options.route ++ ":" ++ options.key) with
  | none =>
    rw [consumeRateLimit_new_window options dateNowMs store h1 h2 hget] at hen
    by_cases hk : k = options.route ++ ":" ++ options.key
    · rw [hk, storeGet_storeSet_self] at hen
      injection hen with hen
      rw [← hen]
      show options.now.getD dateNowMs < options.now.getD dateNowMs + options.windowMs
      omega
    · rw [storeGet_storeSet_ne _ _ _ _ hk] at hen
      exact storeGet_cleanup_live_entry _ _ _ store hen
  | some ex =>
    have hlive : ¬ ex.resetAt ≤ options.now.getD dateNowMs := by
      have := storeGet_cleanup_live_entry _ _ _ store hget
      omega
    rw [consumeRateLimit_in_window options dateNowMs store ex h1 h2 hget hlive] at hen
    have hfst : (if ((ex.count + 1 : Nat) : Int) > options.limit then
        (storeSet (cleanupExpiredEntries (options.now.getD dateNowMs) store)
          (options.route ++ ":" ++ options.key) ⟨ex.count + 1, ex.resetAt⟩,
         (.error (.httpError
          ⟨"Too many requests", 429, some "rate_limited",
           getRateLimitHeaders ⟨options.limit, 0, ex.resetAt,
             max (ceilDiv (ex.resetAt - options.now.getD dateNowMs) 1000) 1⟩ ++
             [("retry-after",
               toString (max (ceilDiv (ex.resetAt - options.now.getD dateNowMs) 1000) 1))]⟩) :
           Except RateLimitFailure RateLimitResult))
      else
        (storeSet (cleanupExpiredEntries (options.now.getD dateNowMs) store)
          (options.route ++ ":" ++ options.key) ⟨ex.count + 1, ex.resetAt⟩,
         .ok ⟨options.limit, max (options.limit - ((ex.count + 1 : Nat) : Int)) 0, ex.resetAt,
           max (ceilDiv (ex.resetAt - options.now.getD dateNowMs) 1000) 1⟩)).1 =
        storeSet (cleanupExpiredEntries (options.now.getD dateNowMs) store)
          (options.route ++ ":" ++ options.key) ⟨ex.count + 1, ex.resetAt⟩ := by
      split <;> rfl
    rw [hfst] at hen
    by_cases hk : k = options.route ++ ":" ++ options.key
    · rw [hk, storeGet_storeSet_self] at hen
      injection hen with hen
      rw [← hen]
      show options.now.getD dateNowMs < ex.resetAt
      omega
    · rw [storeGet_storeSet_ne _ _ _ _ hk] at hen
      exact storeGet_cleanup_live_entry _ _ _ store hen

/-! ## C2 — data-check string construction -/

theorem char_toNat_inj {c d : Char} (h : c.toNat = d.toNat) : c = d :=
  Char.ext (UInt32.toNat.inj h)

theorem char_isDigit_false_of_letter (c : Char) (h : 97 ≤ c.toNat) : c.isDigit = false := by
  unfold Char.isDigit
  have hno : ¬ (c.val ≤ (57 : UInt32)) := fun hcon => by
    have h57 : c.toNat ≤ 57 := hcon
    omega
  rw [decide_eq_false hno, Bool.and_false]

theorem char_isAlpha_true_of_lower (c : Char) (hl : 'a' ≤ c) (hr : c ≤ 'z') :
    c.isAlpha = true := by
  unfold Char.isAlpha Char.isLower
  have h1 : c.val ≥ (97 : UInt32) := hl
  have h2 : c.val ≤ (122 : UInt32) := hr
  rw [decide_eq_true h1, decide_eq_true h2]
  simp

theorem char_toLower_self_of_lower (c : Char) (hl : 'a' ≤ c) : c.toLower = c := by
  unfold Char.toLower
  rw [if_neg]
  intro hcon
  have h1 : 97 ≤ c.toNat := hl
  omega

/-- Over the key repertoire, the ICU-root primary weight places `_` (weight
195) below every lowercase letter (weight `2000 + code`), in the same order
as the byte values. -/
theorem primaryWeight_spec (c : Char) (h : keyCharOk c = true) :
    (c.toNat = 95 ∧ primaryWeight c = 195) ∨
    (97 ≤ c.toNat ∧ c.toNat ≤ 122 ∧ primaryWeight c = 2000 + c.toNat) := by
  simp only [keyCharOk, decide_eq_true_eq] at h
  rcases h with h | ⟨hl, hr⟩
  · subst h
    left
    exact ⟨by decide, by decide⟩
  · right
    have hln : 97 ≤ c.toNat := hl
    have hrn : c.toNat ≤ 122 := hr
    refine ⟨hln, hrn, ?_⟩
    unfold primaryWeight
    rw [char_isDigit_false_of_letter c hln, char_isAlpha_true_of_lower c hl hr]
    simp [char_toLower_self_of_lower c hl]

theorem cmpNatList_self : ∀ xs : List Nat, cmpNatList xs xs = .eq := by
  intro xs
  induction xs with
  | nil => rfl
  | cons x xs ih => simp [cmpNatList, lt_irrefl, ih]

theorem cmpNatList_eq_of_eq : ∀ xs ys : List Nat, cmpNatList xs ys = .eq → xs = ys := by
  intro xs
  induction xs with
  | nil =>
    intro ys h
    cases ys with
    | nil => rfl
    | cons y ys => simp [cmpNatList] at h
  | cons x xs ih =>
    intro ys h
    cases ys with
    | nil => simp [cmpNatList] at h
    | cons y ys =>
      simp only [cmpNatList] at h
      by_cases h1 : x < y
      · rw [if_pos h1] at h; exact absurd h (by simp)
      · rw [if_neg h1] at h
        by_cases h2 : y < x
        · rw [if_pos h2] at h; exact absurd h (by simp)
        · rw [if_neg h2] at h
          have : x = y := by omega
          rw [this, ih ys h]

/-- On strings over the key repertoire, the primary-weight comparison agrees
with the byte comparison. -/
theorem cmp_primary_eq_byte :
    ∀ as bs : List Char, as.all keyCharOk = true → bs.all keyCharOk = true →
      cmpNatList (as.map primaryWeight) (bs.map primaryWeight) =
        cmpNatList (as.map Char.toNat) (bs.map Char.toNat) := by
  intro as
  induction as with
  | nil =>
    intro bs _ _
    cases bs <;> rfl
  | cons c cs ih =>
    intro bs ha hb
    cases bs with
    | nil => rfl
    | cons d ds =>
      simp only [List.all_cons, Bool.and_eq_true] at ha hb
      have h1 := primaryWeight_spec c ha.1
      have h2 := primaryWeight_spec d hb.1
      simp only [List.map_cons, cmpNatList]
      by_cases hlt : c.toNat < d.toNat
      · rw [if_pos hlt, if_pos (by rcases h1 with ⟨e1, e2⟩ | ⟨e1, e2, e3⟩ <;>
          rcases h2 with ⟨f1, f2⟩ | ⟨f1, f2, f3⟩ <;> omega)]
      · rw [if_neg hlt, if_neg (by rcases h1 with ⟨e1, e2⟩ | ⟨e1, e2, e3⟩ <;>
          rcases h2 with ⟨f1, f2⟩ | ⟨f1, f2, f3⟩ <;> omega)]
        by_cases hgt : d.toNat < c.toNat
        · rw [if_pos hgt, if_pos (by rcases h1 with ⟨e1, e2⟩ | ⟨e1, e2, e3⟩ <;>
            rcases h2 with ⟨f1, f2⟩ | ⟨f1, f2, f3⟩ <;> omega)]
        · rw [if_neg hgt, if_neg (by rcases h1 with ⟨e1, e2⟩ | ⟨e1, e2, e3⟩ <;>
            rcases h2 with ⟨f1, f2⟩ | ⟨f1, f2, f3⟩ <;> omega)]
          exact ih ds ha.2 hb.2

/-- On keys made of lowercase ASCII letters and underscores, `localeCompare`
coincides with byte/code-point comparison. -/
theorem localeCompare_eq_byte (a b : String) (ha : a.data.all keyCharOk = true)
    (hb : b.data.all keyCharOk = true) : localeCompare a b = byteCompare a b := by
  unfold localeCompare byteCompare
  rw [cmp_primary_eq_byte a.data b.data ha hb]
  cases hcmp : cmpNatList (a.data.map Char.toNat) (b.data.map Char.toNat) with
  | eq =>
    have hdata : a.data = b.data :=
      List.map_injective_iff.mpr (fun c d h => char_toNat_inj h)
        (cmpNatList_eq_of_eq _ _ hcmp)
    rw [hdata]
    exact cmpNatList_self _
  | lt => rfl
  | gt => rfl

theorem insertCmp_perm {α : Type} (cmp : α → α → Ordering) (x : α) :
    ∀ l : List α, List.Perm (insertCmp cmp x l) (x :: l) := by
  intro l
  induction l with
  | nil => exact List.Perm.refl _
  | cons y ys ih =>
    unfold insertCmp
    split
    · exact (ih.cons y).trans (List.Perm.swap x y ys)
    · exact List.Perm.refl _

theorem sortByCmp_perm {α : Type} (cmp : α → α → Ordering) :
    ∀ l : List α, List.Perm (sortByCmp cmp l) l := by
  intro l
  induction l with
  | nil => exact List.Perm.refl _
  | cons x xs ih =>
    exact (insertCmp_perm cmp x (sortByCmp cmp xs)).trans (ih.cons x)

theorem insertCmp_congr {α : Type} (cmp1 cmp2 : α → α → Ordering) (x : α) :
    ∀ l : List α, (∀ y ∈ l, cmp1 x y = cmp2 x y) →
      insertCmp cmp1 x l = insertCmp cmp2 x l := by
  intro l
  induction l with
  | nil => intro _; rfl
  | cons y ys ih =>
    intro h
    unfold insertCmp
    rw [h y (List.mem_cons_self y ys)]
    split
    · rw [ih (fun z hz => h z (List.mem_cons_of_mem y hz))]
    · rfl

theorem sortByCmp_congr {α : Type} (cmp1 cmp2 : α → α → Ordering) :
    ∀ l : List α, (∀ a ∈ l, ∀ b ∈ l, cmp1 a b = cmp2 a b) →
      sortByCmp cmp1 l = sortByCmp cmp2 l := by
  intro l
  induction l with
  | nil => intro _; rfl
  | cons x xs ih =>
    intro h
    show insertCmp cmp1 x (sortByCmp cmp1 xs) = insertCmp cmp2 x (sortByCmp cmp2 xs)
    rw [ih (fun a ha b hb => h a (List.mem_cons_of_mem x ha) b (List.mem_cons_of_mem x hb))]
    apply insertCmp_congr
    intro y hy
    have hy' : y ∈ xs := ((sortByCmp_perm cmp2 xs).mem_iff).mp hy
    exact h x (List.mem_cons_self x xs) y (List.mem_cons_of_mem x hy')

/-- C2 counterexample: on a payload with keys "a" and "B" the source's
data-check string orders the "a" line first (ICU root collation), while
byte/lexicographic order — "B" (0x42) before "a" (0x61) — demands the
opposite, so the string the claim describes differs from the one the code
builds. -/
theorem dcs_byte_order_counterexample_c2 :
    buildDataCheckString (parseQuery c2raw) = "a=1\nB=2" ∧
    buildDataCheckStringByteOrder (parseQuery c2raw) = "B=2\na=1" ∧
    buildDataCheckString (parseQuery c2raw) ≠ buildDataCheckStringByteOrder (parseQuery c2raw) :=
  ⟨by decide, by decide, by decide⟩

/-- C2 (amended): the data-check string takes all pairs except `hash` and
joins them as `key=value` lines, but sorts the keys with JavaScript
`localeCompare` (ICU root collation), not byte order; the two orders — and
hence the built strings — coincide whenever every key consists only of
lowercase ASCII letters and underscores, which covers every key Telegram
sends. -/
theorem dcs_byte_order_c2 (params : List (String × String))
    (h : params.all (fun p => p.1.data.all keyCharOk) = true) :
    buildDataCheckString params = buildDataCheckStringByteOrder params := by
  unfold buildDataCheckString buildDataCheckStringByteOrder dcsPairs
  congr 1
  congr 1
  apply sortByCmp_congr
  intro p hp q hq
  have hall := List.all_eq_true.mp h
  have hpk : p.1.data.all keyCharOk = true := hall p (List.mem_of_mem_filter hp)
  have hqk : q.1.data.all keyCharOk = true := hall q (List.mem_of_mem_filter hq)
  exact localeCompare_eq_byte p.1 q.1 hpk hqk

/-- Witness for C2 (amended) on a realistic Telegram key set. -/
theorem dcs_byte_order_c2_witness :
    buildDataCheckString (parseQuery "user=u&auth_date=1&query_id=q&hash=h") =
      buildDataCheckStringByteOrder (parseQuery "user=u&auth_date=1&query_id=q&hash=h") :=
  dcs_byte_order_c2 (parseQuery "user=u&auth_date=1&query_id=q&hash=h") (by decide)

/-! ## Digest shape lemmas -/

theorem sha256StateBytes_length (st : Sha256State) : (sha256StateBytes st).length = 32 := by
  simp [sha256StateBytes, wordBytes]

theorem sha256_length (msg : List Nat) : (sha256 msg).length = 32 :=
  sha256StateBytes_length _

theorem hmacSha256_length (key msg : List Nat) : (hmacSha256 key msg).length = 32 :=
  sha256_length _

theorem hexDigit_ok (n : Nat) (h : n < 16) :
    (decide (('a' ≤ hexDigit n ∧ hexDigit n ≤ 'f') ∨
      ('0' ≤ hexDigit n ∧ hexDigit n ≤ '9'))) = true := by
  interval_cases n <;> decide

theorem toLower_hexDigit (n : Nat) (h : n < 16) : (hexDigit n).toLower = hexDigit n := by
  interval_cases n <;> decide

theorem bytesToHex_data (bs : List Nat) :
    (bytesToHex bs).data = bs.flatMap (fun b => [hexDigit ((b >>> 4) % 16), hexDigit (b % 16)]) :=
  rfl

theorem bytesToHex_data_length : ∀ bs : List Nat, (bytesToHex bs).data.length = 2 * bs.length := by
  intro bs
  induction bs with
  | nil => rfl
  | cons b bs ih =>
    rw [bytesToHex_data] at *
    simp only [List.flatMap_cons, List.length_append, List.length_cons, List.length_nil,
      List.length_cons] at *
    omega

/-- The hex rendering of a 32-byte digest passes the `^[a-f0-9]{64}$` test. -/
theorem isHex64_bytesToHex (bs : List Nat) (hlen : bs.length = 32) :
    isHex64 (bytesToHex bs) = true := by
  unfold isHex64
  apply decide_eq_true
  constructor
  · rw [bytesToHex_data_length, hlen]
  · rw [List.all_eq_true]
    intro c hc
    rw [bytesToHex_data, List.mem_flatMap] at hc
    obtain ⟨b, _, hcb⟩ := hc
    simp only [List.mem_cons, List.not_mem_nil, or_false] at hcb
    rcases hcb with rfl | rfl
    · exact hexDigit_ok _ (Nat.mod_lt _ (by omega))
    · exact hexDigit_ok _ (Nat.mod_lt _ (by omega))

/-- Lowercasing fixes a hex digest. -/
theorem jsToLower_bytesToHex (bs : List Nat) : jsToLower (bytesToHex bs) = bytesToHex bs := by
  unfold jsToLower
  have hmap : ∀ l : List Nat,
      (l.flatMap (fun b => [hexDigit ((b >>> 4) % 16), hexDigit (b % 16)])).map Char.toLower =
        l.flatMap (fun b => [hexDigit ((b >>> 4) % 16), hexDigit (b % 16)]) := by
    intro l
    induction l with
    | nil => rfl
    | cons b l ih =>
      simp only [List.flatMap_cons, List.map_append, List.map_cons, List.map_nil, ih,
        toLower_hexDigit _ (Nat.mod_lt _ (by omega : (0:Nat) < 16))]
  rw [bytesToHex_data, hmap]
  rfl

/-! ## Evaluation of the validator through the freshness check -/

/-- With the hash present, well-formed and matching the expected HMAC, and a
positive integer `auth_date`, the validator reduces to the freshness test
followed by the user-payload step. -/
theorem validate_eval_after_auth (initData botToken : String) (maxAgeSeconds : Int)
    (nowMs : Nat) (h0 : String) (a : Int)
    (hh : jsGet (parseQuery initData) "hash" = some h0)
    (hhex : isHex64 (jsToLower h0) = true)
    (hsig : jsToLower h0 = bytesToHex (hmacSha256 (buildTelegramSecret botToken)
      (utf8 (buildDataCheckString (parseQuery initData)))))
    (hauth : jsNumberInt (jsGet (parseQuery initData) "auth_date") = some a)
    (hpos : 0 < a) :
    validateTelegramInitData initData botToken maxAgeSeconds nowMs =
      if ((nowMs / 1000 : Nat) : Int) - a > maxAgeSeconds then
        .error (authError "Telegram initData has expired")
      else userStep (parseQuery initData) a (jsToLower h0) initData := by
  simp only [validateTelegramInitData, hh, Option.map_some']
  rw [if_neg (by simp [hhex])]
  rw [hsig]
  rw [if_neg (by simp)]
  simp only [hauth]
  rw [if_neg (by omega)]

/-- The user-payload step never produces the expiry error. -/
theorem userStep_ne_expired (params : List (String × String)) (a : Int) (h raw : String) :
    userStep params a h raw ≠ .error (authError "Telegram initData has expired") := by
  unfold userStep
  split
  · decide
  · split
    · decide
    · split
      · decide
      · split
        · decide
        · simp

/-! ## C4 — expiry boundary is inclusive -/

/-- C4: once the signature check has passed and `auth_date` is a positive
integer, the validator fails with the expiry error iff
`now − auth_date > max_age_seconds` (whole seconds) — the boundary is
inclusive; with `max_age_seconds = 30`, `now − auth_date = 31` is rejected
with the expiry error while 30 and 29 are not (full acceptance additionally
needs the valid user payload, see C1). -/
theorem validate_expiry_boundary_c4 (initData botToken : String) (h0 : String) (a : Int)
    (hh : jsGet (parseQuery initData) "hash" = some h0)
    (hhex : isHex64 (jsToLower h0) = true)
    (hsig : jsToLower h0 = bytesToHex (hmacSha256 (buildTelegramSecret botToken)
      (utf8 (buildDataCheckString (parseQuery initData)))))
    (hauth : jsNumberInt (jsGet (parseQuery initData) "auth_date") = some a)
    (hpos : 0 < a) :
    (∀ (maxAgeSeconds : Int) (nowMs : Nat),
      validateTelegramInitData initData botToken maxAgeSeconds nowMs =
          .error (authError "Telegram initData has expired") ↔
        ((nowMs / 1000 : Nat) : Int) - a > maxAgeSeconds) ∧
    (∀ nowMs : Nat, ((nowMs / 1000 : Nat) : Int) - a = 31 →
      validateTelegramInitData initData botToken 30 nowMs =
        .error (authError "Telegram initData has expired")) ∧
    (∀ nowMs : Nat, ((nowMs / 1000 : Nat) : Int) - a = 30 ∨
        ((nowMs / 1000 : Nat) : Int) - a = 29 →
      validateTelegramInitData initData botToken 30 nowMs ≠
        .error (authError "Telegram initData has expired")) := by
  refine ⟨fun maxAgeSeconds nowMs => ?_, fun nowMs h31 => ?_, fun nowMs h2930 => ?_⟩
  · rw [validate_eval_after_auth initData botToken maxAgeSeconds nowMs h0 a hh hhex hsig
      hauth hpos]
    by_cases hc : ((nowMs / 1000 : Nat) : Int) - a > maxAgeSeconds
    · rw [if_pos hc]
      exact ⟨fun _ => hc, fun _ => rfl⟩
    · rw [if_neg hc]
      exact ⟨fun hcon => absurd hcon (userStep_ne_expired _ _ _ _), fun hcon => absurd hcon hc⟩
  · rw [validate_eval_after_auth initData botToken 30 nowMs h0 a hh hhex hsig hauth hpos,
      if_pos (by omega)]
  · rw [validate_eval_after_auth initData botToken 30 nowMs h0 a hh hhex hsig hauth hpos,
      if_neg (by omega)]
    exact userStep_ne_expired _ _ _ _

set_option maxRecDepth 1000000 in
/-- Witness for C4 at a fully concrete signed payload: 31 seconds past is
expired, exactly 30 is not. -/
theorem validate_expiry_boundary_c4_witness :
    validateTelegramInitData c1raw tBot 30 1031000 =
      .error (authError "Telegram initData has expired") ∧
    validateTelegramInitData c1raw tBot 30 1030000 ≠
      .error (authError "Telegram initData has expired") :=
  ⟨(validate_expiry_boundary_c4 c1raw tBot c1hash 1000 (by decide) (by decide) (by decide)
      (by decide) (by decide)).2.1 1031000 (by decide),
   (validate_expiry_boundary_c4 c1raw tBot c1hash 1000 (by decide) (by decide) (by decide)
      (by decide) (by decide)).2.2 1030000 (Or.inl (by decide))⟩

/-! ## C1 — signature round-trip -/

/-- C1: any parsed payload whose `hash` field equals the hex HMAC-SHA256 of
its data-check string under the secret key
HMAC-SHA256(key="WebAppData", message=bot_token), with a positive integer
`auth_date` within `max_age_seconds` of now and a `user` JSON accepted by the
identity schema, validates successfully and returns the embedded user
unchanged. -/
theorem validate_roundtrip_c1 (initData botToken : String) (maxAgeSeconds : Int)
    (nowMs : Nat) (a : Int) (uraw : String) (u : TelegramUser)
    (hh : jsGet (parseQuery initData) "hash" =
      some (bytesToHex (hmacSha256 (buildTelegramSecret botToken)
        (utf8 (buildDataCheckString (parseQuery initData))))))
    (hauth : jsNumberInt (jsGet (parseQuery initData) "auth_date") = some a)
    (hpos : 0 < a)
    (hfresh : ((nowMs / 1000 : Nat) : Int) - a ≤ maxAgeSeconds)
    (huser : jsGet (parseQuery initData) "user" = some uraw)
    (hne : uraw ≠ "")
    (hparse : (jsonParse uraw).bind telegramUserSchemaParse = some u) :
    validateTelegramInitData initData botToken maxAgeSeconds nowMs =
      .ok ⟨a, bytesToHex (hmacSha256 (buildTelegramSecret botToken)
        (utf8 (buildDataCheckString (parseQuery initData)))), u,
        jsGet (parseQuery initData) "query_id", initData⟩ := by
  have hlow : jsToLower (bytesToHex (hmacSha256 (buildTelegramSecret botToken)
      (utf8 (buildDataCheckString (parseQuery initData))))) =
      bytesToHex (hmacSha256 (buildTelegramSecret botToken)
        (utf8 (buildDataCheckString (parseQuery initData)))) :=
    jsToLower_bytesToHex _
  have hhex : isHex64 (jsToLower (bytesToHex (hmacSha256 (buildTelegramSecret botToken)
      (utf8 (buildDataCheckString (parseQuery initData)))))) = true := by
    rw [hlow]
    exact isHex64_bytesToHex _ (hmacSha256_length _ _)
  obtain ⟨ju, hjson, hschema⟩ :
      ∃ ju, jsonParse uraw = some ju ∧ telegramUserSchemaParse ju = some u := by
    cases hj : jsonParse uraw with
    | none => rw [hj] at hparse; exact absurd hparse (by simp)
    | some ju => rw [hj] at hparse; exact ⟨ju, rfl, by simpa using hparse⟩
  rw [validate_eval_after_auth initData botToken maxAgeSeconds nowMs _ a hh hhex hlow
    hauth hpos, if_neg (by omega), hlow]
  simp [userStep, huser, hne, hjson, hschema]

set_option maxRecDepth 1000000 in
/-- Witness for C1: a concrete payload for user 42 with a genuinely computed
signature round-trips. -/
theorem validate_roundtrip_c1_witness :
    validateTelegramInitData c1raw tBot 86400 1030000 =
      .ok ⟨1000, bytesToHex (hmacSha256 (buildTelegramSecret tBot)
        (utf8 (buildDataCheckString (parseQuery c1raw)))), tUser,
        jsGet (parseQuery c1raw) "query_id", c1raw⟩ :=
  validate_roundtrip_c1 c1raw tBot 86400 1030000 1000
    ((jsGet (parseQuery c1raw) "user").getD "") tUser (by decide) (by decide) (by decide)
    (by decide) (by decide) (by decide) (by decide)

/-! ## C3 — occurrence policy for repeated keys -/

set_option maxRecDepth 1000000 in
/-- C3 counterexample: with `auth_date` occurring twice (1000 then 2000), a
fully signed payload validates with `authDate = 1000` — the FIRST occurrence,
not the last as the claim states — and the data-check string's pair list
keeps BOTH occurrences rather than ignoring the earlier one. -/
theorem validate_last_occurrence_counterexample_c3 :
    validateTelegramInitData c3raw tBot 86400 1030000 =
      .ok ⟨1000, c3hash, tUser, none, c3raw⟩ ∧
    ((parseQuery c3raw).filter (fun p => p.1 = "auth_date")).map Prod.snd =
      ["1000", "2000"] ∧
    dcsPairs (parseQuery c3raw) =
      [("auth_date", "1000"), ("auth_date", "2000"),
       ("user", (jsGet (parseQuery c3raw) "user").getD "")] :=
  ⟨by decide, by decide, by decide⟩

/-- C3 (amended): `URLSearchParams.get` returns the FIRST occurrence of a
repeated key, so every field the validator extracts (`hash`, `auth_date`,
`user`, `query_id`) comes from the first occurrence; and the data-check
string is built from ALL occurrences of every non-`hash` key (the stable
sort preserves the original order of duplicates), so earlier occurrences are
not ignored. -/
theorem validate_first_occurrence_c3 :
    (∀ (ps : List (String × String)) (k : String),
      jsGet ps k = ((ps.filter (fun p => p.1 = k)).map Prod.snd).head?) ∧
    (∀ params : List (String × String),
      List.Perm (dcsPairs params) (params.filter (fun p => p.1 ≠ "hash"))) ∧
    (∀ (initData botToken : String) (maxAgeSeconds : Int) (nowMs : Nat)
        (r : ValidatedInitData),
      validateTelegramInitData initData botToken maxAgeSeconds nowMs = .ok r →
      (jsGet (parseQuery initData) "hash").map jsToLower = some r.hash ∧
      jsNumberInt (jsGet (parseQuery initData) "auth_date") = some r.authDate ∧
      (∃ uraw, jsGet (parseQuery initData) "user" = some uraw ∧
        (jsonParse uraw).bind telegramUserSchemaParse = some r.user) ∧
      r.queryId = jsGet (parseQuery initData) "query_id" ∧
      r.raw = initData) := by
  refine ⟨?_, ?_, ?_⟩
  · intro ps k
    induction ps with
    | nil => rfl
    | cons p rest ih =>
      obtain ⟨pk, pv⟩ := p
      by_cases h : pk = k
      · simp [jsGet, List.find?_cons, List.filter_cons, h]
      · simp only [jsGet, List.find?_cons, List.filter_cons] at *
        rw [show (decide (pk = k)) = false by simp [h]]
        simp
  · intro params
    exact sortByCmp_perm _ _
  · intro initData botToken maxAgeSeconds nowMs r h
    simp only [validateTelegramInitData] at h
    cases hh : jsGet (parseQuery initData) "hash" with
    | none => rw [hh] at h; simp at h
    | some h0 =>
      rw [hh] at h
      simp only [Option.map_some'] at h
      by_cases hhex : isHex64 (jsToLower h0) = true
      · rw [if_neg (by simp [hhex])] at h
        split at h
        · simp at h
        · cases hauth : jsNumberInt (jsGet (parseQuery initData) "auth_date") with
          | none => simp only [hauth] at h; simp at h
          | some a =>
            simp only [hauth] at h
            split at h
            · simp at h
            · split at h
              · simp at h
              · unfold userStep at h
                cases huser : jsGet (parseQuery initData) "user" with
                | none => simp only [huser] at h; simp at h
                | some uraw =>
                  simp only [huser] at h
                  split at h
                  · simp at h
                  · cases hjson : jsonParse uraw with
                    | none => simp only [hjson] at h; simp at h
                    | some ju =>
                      simp only [hjson] at h
                      cases hschema : telegramUserSchemaParse ju with
                      | none => simp only [hschema] at h; simp at h
                      | some u =>
                        simp only [hschema, Except.ok.injEq] at h
                        subst h
                        refine ⟨by simp, by simp, ⟨uraw, rfl, ?_⟩, rfl, rfl⟩
                        rw [hjson]
                        simpa using hschema
      · rw [if_pos (by simp [hhex])] at h
        simp at h

set_option maxRecDepth 1000000 in
/-- Witness for C3 (amended): the inversion applied to the duplicated
`auth_date` payload. -/
theorem validate_first_occurrence_c3_witness :
    (jsGet (parseQuery c3raw) "hash").map jsToLower =
      some ((⟨1000, c3hash, tUser, none, c3raw⟩ : ValidatedInitData)).hash ∧
    jsNumberInt (jsGet (parseQuery c3raw) "auth_date") =
      some ((⟨1000, c3hash, tUser, none, c3raw⟩ : ValidatedInitData)).authDate ∧
    (∃ uraw, jsGet (parseQuery c3raw) "user" = some uraw ∧
      (jsonParse uraw).bind telegramUserSchemaParse =
        some ((⟨1000, c3hash, tUser, none, c3raw⟩ : ValidatedInitData)).user) ∧
    ((⟨1000, c3hash, tUser, none, c3raw⟩ : ValidatedInitData)).queryId =
      jsGet (parseQuery c3raw) "query_id" ∧
    ((⟨1000, c3hash, tUser, none, c3raw⟩ : ValidatedInitData)).raw = c3raw :=
  validate_first_occurrence_c3.2.2 c3raw tBot 86400 1030000
    ⟨1000, c3hash, tUser, none, c3raw⟩ (by decide)

/-- Witness for C10: the entry created by a first call is strictly in the
future. -/
theorem rate_limit_freshness_c10_witness :
    storeGet (consumeRateLimit ⟨"/api/validate", "k", 3, 60000, none⟩ 0 []).1
        ("/api/validate" ++ ":" ++ "k") = some ⟨1, 0 + 60000⟩ ∧
    (0 : Nat) < ((⟨1, 0 + 60000⟩ : RateLimitEntry)).resetAt :=
  ⟨by decide,
   rate_limit_freshness_c10 ⟨"/api/validate", "k", 3, 60000, none⟩ 0 [] (by decide) (by decide)
     ("/api/validate" ++ ":" ++ "k") ⟨1, 0 + 60000⟩ (by decide)⟩

end Mozg
